import Mathlib

/-!
# grpc-federation-demo: the three backend services and the error utilities

A shallow embedding of `backend/errorutil/error_util.go`, `backend/order/server.go`,
`backend/user/server.go`, `backend/product/server.go` and of the client factory of
`bff/server.go`, followed by the properties proved about them.

Conventions of the embedding.

* A Go `string` is a Lean `String`. Every string these services handle is a literal of
  the source or a field of a decoded protobuf message, hence well-formed UTF-8 text.
  `len` and slicing are byte operations in Go and are modelled on bytes.
* A Go `map[string]V` is an association list with `lookup` for `v, ok := m[k]` and
  `store` for `m[k] = v`. The maps of a server are the ones its `New` function makes, so
  none is nil.
* A handler returns `GoResult.ret resp err` for `return resp, err` (a `nil` is `none`)
  and `GoResult.panic` when the Go runtime panics.
* `float64` is a type parameter `F` with the operations the code uses; `Binary64` is the
  instance with the IEEE rounding, `ℚ` the one with exact arithmetic.
* The order in which a `range` statement visits a map is a parameter `rangeOrder` of the
  handler that loops.
* The protobuf marshalling inside `(*Status).WithDetails`, a step of the grpc library, is a
  parameter `marshal` of the error utilities and of the handlers that call them.
* `log.Printf` calls write to the process log only and are left out.
* `time.Now().Format(time.RFC3339)` is an input of the function that evaluates it.
-/

namespace GrpcFederationDemo

/-! ## Go runtime -/

/-- Go `map[string]V`: the entries in one enumeration order. -/
abbrev GoMap (V : Type) := List (String × V)

namespace GoMap

/-- The comma-ok read `v, exists := m[k]`: `none` when `k` is not a key. -/
def lookup {V : Type} : GoMap V → String → Option V
  | [], _ => none
  | (k', v) :: m, k => if k' = k then some v else lookup m k

/-- The plain read `m[k]`, which yields the zero value of `V` for a missing key. -/
def index {V : Type} (zero : V) (m : GoMap V) (k : String) : V :=
  (m.lookup k).getD zero

/-- The assignment `m[k] = v`: replaces the value of an existing key, adds a new key otherwise. -/
def store {V : Type} : GoMap V → String → V → GoMap V
  | [], k, v => [(k, v)]
  | (k', v') :: m, k, v => if k' = k then (k, v) :: m else (k', v') :: store m k v

end GoMap

/-- Two's-complement wrap-around of the 64-bit Go `int`. -/
def wrapInt (n : Int) : Int := (n + 2 ^ 63) % 2 ^ 64 - 2 ^ 63

/-- The conversion `int32(n)` of a Go `int`: the low 32 bits, read as a signed number. -/
def int32 (n : Int) : Int := (n + 2 ^ 31) % 2 ^ 32 - 2 ^ 31

/-- The verb `%03d` of `fmt.Sprintf`: decimal digits, padded with zeros to width three,
the sign counting towards the width. -/
def sprintf03d (n : Int) : String :=
  if 0 ≤ n then "".pushn '0' (3 - (Nat.repr n.toNat).length) ++ Nat.repr n.toNat
  else "-" ++ "".pushn '0' (2 - (Nat.repr n.natAbs).length) ++ Nat.repr n.natAbs

/-- Go `len(s)` of a string: the number of bytes of its UTF-8 encoding. -/
def len (s : String) : Nat := s.utf8ByteSize

/-- Walks `cs` to byte offset `i`: the characters from that offset on, `none` when the
offset lies inside a multi-byte character or past the end. -/
def sliceFromAux : List Char → Nat → Option (List Char)
  | cs, 0 => some cs
  | [], _ + 1 => none
  | c :: cs, i + 1 => if c.utf8Size ≤ i + 1 then sliceFromAux cs (i + 1 - c.utf8Size) else none

/-- Go `s[i:]` for `i ≤ len(s)`, a slice at a byte offset. When the offset falls inside a
multi-byte character the Go result starts with a continuation byte, is no well-formed text
and so differs from every string of this model: that case is `none`. -/
def sliceFrom (s : String) (i : Nat) : Option String :=
  (sliceFromAux s.data i).map String.mk

/-- The `float64` operations the services use: the zero value, `+`, `*`, decimal literals
and the conversion `float64(q)` of an `int32`. -/
class GoFloat64 (F : Type) extends Zero F, Add F, Mul F, OfScientific F where
  /-- The conversion `float64(q)` of an `int32` quantity. -/
  ofInt32 : Int → F

/-- IEEE binary64, the arithmetic of the source. -/
instance instGoFloat64Float : GoFloat64 Float where
  zero := 0.0
  ofInt32 := Float.ofInt

/-- Exact rational arithmetic, for evaluating the definitions on concrete inputs. -/
instance instGoFloat64Rat : GoFloat64 ℚ where
  ofInt32 := fun q => (q : ℚ)

/-- IEEE 754 binary64, the `float64` of Go, on the part of its values that this development
computes with: `zero` (of either sign), and the normal numbers, `normal negative m x` being
`± m * 2 ^ x` with `2 ^ 52 ≤ m < 2 ^ 53`. Every other value (NaN, the infinities, the
subnormal numbers) and every operation that involves one is `other`, about which nothing is
stated. -/
inductive Binary64 where
  | zero
  | normal (negative : Bool) (significand : Nat) (exponent : Int)
  | other
  deriving DecidableEq, Repr

namespace Binary64

/-- Number of binary digits of `n`, by halving; `fuel` bounds the number of halvings. -/
def bitLengthAux : Nat → Nat → Nat
  | 0, _ => 0
  | fuel + 1, n => if n = 0 then 0 else bitLengthAux fuel (n / 2) + 1

/-- Number of binary digits of `n` (0 for 0). -/
def bitLength (n : Nat) : Nat := bitLengthAux n n

/-- Rounding of the exact value `± n / d` to the nearest binary64 number, ties to the even
significand, as every IEEE operation does with its exact result: `e` is the binary exponent
of `n / d`, the quotient is scaled to a significand of 53 bits and rounded, and a result
outside the normal range is `other`. -/
def round (negative : Bool) (n d : Nat) : Binary64 :=
  if n = 0 ∨ d = 0 then zero
  else
    let e₀ : Int := (bitLength n : Int) - (bitLength d : Int)
    let e : Int :=
      if (if 0 ≤ e₀ then d * 2 ^ e₀.toNat ≤ n else d ≤ n * 2 ^ (-e₀).toNat) then e₀ else e₀ - 1
    let s : Int := 52 - e
    let num : Nat := if 0 ≤ s then n * 2 ^ s.toNat else n
    let den : Nat := if 0 ≤ s then d else d * 2 ^ (-s).toNat
    let k : Nat := num / den
    let r : Nat := num % den
    let k : Nat :=
      if 2 * r < den then k else if den < 2 * r then k + 1 else if k % 2 = 0 then k else k + 1
    let e : Int := if k = 2 ^ 53 then e + 1 else e
    let k : Nat := if k = 2 ^ 53 then 2 ^ 52 else k
    if e < -1022 ∨ 1023 < e then other else normal negative k (e - 52)

/-- The sum `a + b` of binary64: the exact sum, rounded. -/
def add : Binary64 → Binary64 → Binary64
  | zero, b => b
  | a, zero => a
  | normal na ma xa, normal nb mb xb =>
    let x : Int := min xa xb
    let a : Int := (if na then -1 else 1) * (ma * 2 ^ (xa - x).toNat : Nat)
    let b : Int := (if nb then -1 else 1) * (mb * 2 ^ (xb - x).toNat : Nat)
    let sum : Int := a + b
    if sum = 0 then zero
    else if 0 ≤ x then round (decide (sum < 0)) (sum.natAbs * 2 ^ x.toNat) 1
    else round (decide (sum < 0)) sum.natAbs (2 ^ (-x).toNat)
  | _, _ => other

/-- The product `a * b` of binary64: the exact product, rounded. -/
def mul : Binary64 → Binary64 → Binary64
  | zero, zero => zero
  | zero, normal _ _ _ => zero
  | normal _ _ _, zero => zero
  | normal na ma xa, normal nb mb xb =>
    let x : Int := xa + xb
    if 0 ≤ x then round (xor na nb) (ma * mb * 2 ^ x.toNat) 1
    else round (xor na nb) (ma * mb) (2 ^ (-x).toNat)
  | _, _ => other

/-- The conversion `float64(q)` of an integer. -/
def ofInt (q : Int) : Binary64 := round (decide (q < 0)) q.natAbs 1

/-- A decimal literal `mantissa * 10 ^ (± decimalExponent)` of the source, which the Go
compiler rounds to the nearest binary64 number. -/
def ofDecimal (mantissa : Nat) (exponentSign : Bool) (decimalExponent : Nat) : Binary64 :=
  if exponentSign then round false mantissa (10 ^ decimalExponent)
  else round false (mantissa * 10 ^ decimalExponent) 1

end Binary64

/-- Binary64 arithmetic with its rounding, for evaluating amounts as the Go program does. -/
instance instGoFloat64Binary64 : GoFloat64 Binary64 where
  zero := Binary64.zero
  add := Binary64.add
  mul := Binary64.mul
  ofScientific := Binary64.ofDecimal
  ofInt32 := Binary64.ofInt

/-! ## google.golang.org/grpc: `codes` and `status` -/

/-- The gRPC status codes that occur in the source. -/
inductive Code where
  | OK
  | FailedPrecondition
  | Unavailable
  | Internal
  deriving DecidableEq, Repr

/-- The message `errdetails.PreconditionFailure_Violation`. -/
structure Violation where
  Type_ : String
  Subject : String
  Description : String
  deriving DecidableEq, Repr

/-- The detail messages the utilities attach: `errdetails.PreconditionFailure` with its
violations, and `errdetails.ErrorInfo`, of which only `Reason` is set. -/
inductive Detail where
  | PreconditionFailure (Violations : List Violation)
  | ErrorInfo (Reason : String)
  deriving DecidableEq, Repr

/-- A gRPC status: code, message and attached details. A non-nil Go `error` made by the
`status` package is identified with its status. -/
structure Status where
  code : Code
  message : String
  details : List Detail
  deriving DecidableEq, Repr

/-- Result of a handler call: `return resp, err` (a `nil` is `none`), or a runtime panic. -/
inductive GoResult (α : Type) where
  | ret (resp : Option α) (err : Option Status)
  | panic

/-- Behaviour of the protobuf marshalling step inside `WithDetails`, which belongs to the
library and not to this repository: `none` when the detail marshals, the text of the
failure otherwise. -/
abbrev Marshal := Detail → Option String

/-- The call `status.New(c, msg)`. -/
def status.New (c : Code) (msg : String) : Status := ⟨c, msg, []⟩

/-- The method `(*Status).Err()`: `nil` for code OK, the status as an error otherwise. -/
def Status.Err (s : Status) : Option Status :=
  if s.code = Code.OK then none else some s

/-- The call `status.Error(c, msg)`, which is `New(c, msg).Err()`. -/
def status.Error (c : Code) (msg : String) : Option Status := (status.New c msg).Err

/-- The method `(*Status).WithDetails(detail)`: refused for a status with code OK, fails
when the detail cannot be marshalled, otherwise a copy of the status with the detail
appended. -/
def Status.WithDetails (marshal : Marshal) (s : Status) (d : Detail) : Except String Status :=
  if s.code = Code.OK then .error "no error details for status with code OK"
  else
    match marshal d with
    | some failure => .error failure
    | none => .ok { s with details := s.details ++ [d] }

/-! ## backend/errorutil/error_util.go -/

namespace errorutil

/-- The interface `FailureCodeStringer`: an enum that can be converted to a string. -/
class FailureCodeStringer (α : Type) where
  /-- The method `String()`. -/
  String : α → String

/-- The interface `ErrorReasonStringer`. -/
class ErrorReasonStringer (α : Type) where
  /-- The method `String()`. -/
  String : α → String

/-- The function `FailedPreconditionError`: a FAILED_PRECONDITION status with one
`PreconditionFailure` detail, or, when attaching the detail fails, the plain
FAILED_PRECONDITION error with the description as message. -/
def FailedPreconditionError {α : Type} [FailureCodeStringer α] (marshal : Marshal)
    (failureCode : α) (subject description : String) : Option Status :=
  let st := status.New Code.FailedPrecondition ""
  let v : Violation :=
    { Type_ := FailureCodeStringer.String failureCode
      Subject := subject
      Description := description }
  let pfailure := Detail.PreconditionFailure [v]
  match st.WithDetails marshal pfailure with
  | .error _ => status.Error Code.FailedPrecondition description
  | .ok st => st.Err

/-- The function `UnavailableError`; `err` is the text `err.Error()` of the cause. When
attaching the detail fails the result is an INTERNAL error. -/
def UnavailableError {ρ : Type} [ErrorReasonStringer ρ] (marshal : Marshal)
    (err : String) (reason : ρ) : Option Status :=
  let in_ := Detail.ErrorInfo (ErrorReasonStringer.String reason)
  let st := status.New Code.Unavailable err
  match st.WithDetails marshal in_ with
  | .error withErr => status.Error Code.Internal ("failed to set details: " ++ withErr)
  | .ok st => st.Err

end errorutil

/-! ## proto/backend: the generated messages and enums -/

namespace pb

/-- Modelled from the spec: the generated package `proto/backend` is not among the sources.
The order status is one of pending, processing, shipped, delivered, cancelled; the
constructors carry the names of the Go constants `OrderStatus_ORDER_STATUS_*`. -/
inductive OrderStatus where
  | ORDER_STATUS_PENDING
  | ORDER_STATUS_PROCESSING
  | ORDER_STATUS_SHIPPED
  | ORDER_STATUS_DELIVERED
  | ORDER_STATUS_CANCELLED
  deriving DecidableEq, Repr

/-- Modelled from the spec: the failure codes of the order service (order-not-found,
order-cancelled, order-no-items), named as the Go constants `OrderFailureCode_*`. -/
inductive OrderFailureCode where
  | ORDER_FAILURE_CODE_ORDER_NOT_FOUND
  | ORDER_FAILURE_CODE_ORDER_CANCELLED
  | ORDER_FAILURE_CODE_ORDER_NO_ITEMS
  deriving DecidableEq, Repr

/-- Modelled from the spec: the reason code of the order service (maintenance). -/
inductive OrderErrorReason where
  | ORDER_ERROR_REASON_MAINTENANCE
  deriving DecidableEq, Repr

/-- Modelled from the spec: the failure codes of the user service (user-not-found,
account-suspended), named as the Go constants `UserFailureCode_*`. -/
inductive UserFailureCode where
  | USER_FAILURE_CODE_USER_NOT_FOUND
  | USER_FAILURE_CODE_USER_ACCOUNT_SUSPENDED
  deriving DecidableEq, Repr

/-- Modelled from the spec: the reason code of the user service (maintenance). -/
inductive UserErrorReason where
  | USER_ERROR_REASON_MAINTENANCE
  deriving DecidableEq, Repr

/-- Modelled from the spec: the failure codes of the product service (product-not-found,
product-out-of-stock), named as the Go constants `ProductFailureCode_*`. -/
inductive ProductFailureCode where
  | PRODUCT_FAILURE_CODE_PRODUCT_NOT_FOUND
  | PRODUCT_FAILURE_CODE_PRODUCT_OUT_OF_STOCK
  deriving DecidableEq, Repr

/-- Modelled from the spec: the reason code of the product service (maintenance). -/
inductive ProductErrorReason where
  | PRODUCT_ERROR_REASON_MAINTENANCE
  deriving DecidableEq, Repr

/-- Modelled from the spec: the generated `String()` of a protobuf enum returns the name of
the value, which is the Go constant's name without the enum type in front. -/
instance : errorutil.FailureCodeStringer OrderFailureCode where
  String
    | .ORDER_FAILURE_CODE_ORDER_NOT_FOUND => "ORDER_FAILURE_CODE_ORDER_NOT_FOUND"
    | .ORDER_FAILURE_CODE_ORDER_CANCELLED => "ORDER_FAILURE_CODE_ORDER_CANCELLED"
    | .ORDER_FAILURE_CODE_ORDER_NO_ITEMS => "ORDER_FAILURE_CODE_ORDER_NO_ITEMS"

/-- Modelled from the spec: `String()` of the order service's reason code. -/
instance : errorutil.ErrorReasonStringer OrderErrorReason where
  String
    | .ORDER_ERROR_REASON_MAINTENANCE => "ORDER_ERROR_REASON_MAINTENANCE"

/-- Modelled from the spec: `String()` of the user service's failure codes. -/
instance : errorutil.FailureCodeStringer UserFailureCode where
  String
    | .USER_FAILURE_CODE_USER_NOT_FOUND => "USER_FAILURE_CODE_USER_NOT_FOUND"
    | .USER_FAILURE_CODE_USER_ACCOUNT_SUSPENDED => "USER_FAILURE_CODE_USER_ACCOUNT_SUSPENDED"

/-- Modelled from the spec: `String()` of the user service's reason code. -/
instance : errorutil.ErrorReasonStringer UserErrorReason where
  String
    | .USER_ERROR_REASON_MAINTENANCE => "USER_ERROR_REASON_MAINTENANCE"

/-- Modelled from the spec: `String()` of the product service's failure codes. -/
instance : errorutil.FailureCodeStringer ProductFailureCode where
  String
    | .PRODUCT_FAILURE_CODE_PRODUCT_NOT_FOUND => "PRODUCT_FAILURE_CODE_PRODUCT_NOT_FOUND"
    | .PRODUCT_FAILURE_CODE_PRODUCT_OUT_OF_STOCK => "PRODUCT_FAILURE_CODE_PRODUCT_OUT_OF_STOCK"

/-- Modelled from the spec: `String()` of the product service's reason code. -/
instance : errorutil.ErrorReasonStringer ProductErrorReason where
  String
    | .PRODUCT_ERROR_REASON_MAINTENANCE => "PRODUCT_ERROR_REASON_MAINTENANCE"

/-- Modelled from the spec: an order item is a product identifier, a quantity (`int32`) and
the unit price at the time of the order (`float64`). -/
structure OrderItem (F : Type) where
  ProductId : String
  Quantity : Int
  Price : F
  deriving DecidableEq

/-- Modelled from the spec: an order is an identifier, the owning user's identifier, the
sequence of items, the total amount, the status and the two timestamps. -/
structure Order (F : Type) where
  Id : String
  UserId : String
  Items : List (OrderItem F)
  TotalAmount : F
  Status : OrderStatus
  CreatedAt : String
  UpdatedAt : String
  deriving DecidableEq

/-- Modelled from the spec: a user is an identifier, a display name, an email address, an
age (`int32`) and a creation timestamp. -/
structure User where
  Id : String
  Name : String
  Email : String
  Age : Int
  CreatedAt : String
  deriving DecidableEq, Repr

/-- Modelled from the spec: a product is an identifier, a name, a description, a unit price,
a category, a stock count (`int32`) and a creation timestamp. -/
structure Product (F : Type) where
  Id : String
  Name : String
  Description : String
  Price : F
  Category : String
  Stock : Int
  CreatedAt : String
  deriving DecidableEq

/-- Modelled from the spec: request of `GetOrder`. -/
structure GetOrderRequest where
  OrderId : String

/-- Modelled from the spec: response of `GetOrder`. -/
structure GetOrderResponse (F : Type) where
  Order : Order F

/-- Modelled from the spec: request of `ListOrdersByUser`; `Limit` and `Offset` are `int32`. -/
structure ListOrdersByUserRequest where
  UserId : String
  Limit : Int
  Offset : Int

/-- Modelled from the spec: response of `ListOrdersByUser`; `Total` is `int32`. -/
structure ListOrdersByUserResponse (F : Type) where
  Orders : List (Order F)
  Total : Int

/-- Modelled from the spec: request of `CreateOrder`. It has no field for a total. -/
structure CreateOrderRequest (F : Type) where
  UserId : String
  Items : List (OrderItem F)

/-- Modelled from the spec: response of `CreateOrder`. -/
structure CreateOrderResponse (F : Type) where
  Order : Order F

/-- Modelled from the spec: request of `GetUser`. -/
structure GetUserRequest where
  UserId : String

/-- Modelled from the spec: response of `GetUser`. -/
structure GetUserResponse where
  User : User

/-- Modelled from the spec: request of `ListUsers`; `Limit` and `Offset` are `int32`. -/
structure ListUsersRequest where
  Limit : Int
  Offset : Int

/-- Modelled from the spec: response of `ListUsers`; `Total` is `int32`. -/
structure ListUsersResponse where
  Users : List User
  Total : Int

/-- Modelled from the spec: request of `ListProducts`; `Limit` and `Offset` are `int32`. -/
structure ListProductsRequest where
  Category : String
  Limit : Int
  Offset : Int

/-- Modelled from the spec: response of `ListProducts`; `Total` is `int32`. -/
structure ListProductsResponse (F : Type) where
  Products : List (Product F)
  Total : Int

/-- Modelled from the spec: request of `GetProductsByIDs`. -/
structure GetProductsByIDsRequest where
  ProductIds : List String

/-- Modelled from the spec: response of `GetProductsByIDs`. -/
structure GetProductsByIDsResponse (F : Type) where
  Products : List (Product F)

/-- Modelled from the spec: request of `GetProduct`. -/
structure GetProductRequest where
  ProductId : String

/-- Modelled from the spec: response of `GetProduct`. -/
structure GetProductResponse (F : Type) where
  Product : Product F

end pb

/-! ## backend/order/server.go -/

/-- The struct `orderServer`: the primary map, the per-user index, the counter (a Go `int`)
and the maintenance flag. -/
structure orderServer (F : Type) where
  orders : GoMap (pb.Order F)
  userOrders : GoMap (List (pb.Order F))
  orderCounter : Int
  maintenanceMode : Bool

namespace orderServer

variable {F : Type} [GoFloat64 F]

/-- The eight orders of the slice literal in `seedOrders`, in the order of the source.
`stamp k` is the `k`-th timestamp the literal evaluates. -/
def seedList (stamp : Nat → String) : List (pb.Order F) :=
  [ { Id := "order-001", UserId := "user-001",
      Items := [⟨"prod-001", 1, 1299.99⟩, ⟨"prod-002", 2, 29.99⟩],
      TotalAmount := 1359.97, Status := .ORDER_STATUS_DELIVERED,
      CreatedAt := stamp 0, UpdatedAt := stamp 1 },
    { Id := "order-002", UserId := "user-001",
      Items := [⟨"prod-003", 1, 49.99⟩, ⟨"prod-004", 1, 89.99⟩],
      TotalAmount := 139.98, Status := .ORDER_STATUS_PROCESSING,
      CreatedAt := stamp 2, UpdatedAt := stamp 3 },
    { Id := "order-003", UserId := "user-002",
      Items := [⟨"prod-005", 2, 399.99⟩],
      TotalAmount := 799.98, Status := .ORDER_STATUS_SHIPPED,
      CreatedAt := stamp 4, UpdatedAt := stamp 5 },
    { Id := "order-004", UserId := "user-002",
      Items := [⟨"prod-002", 3, 29.99⟩],
      TotalAmount := 89.97, Status := .ORDER_STATUS_PENDING,
      CreatedAt := stamp 6, UpdatedAt := stamp 7 },
    { Id := "order-005", UserId := "user-003",
      Items := [⟨"prod-001", 1, 1299.99⟩, ⟨"prod-005", 1, 399.99⟩],
      TotalAmount := 1699.98, Status := .ORDER_STATUS_DELIVERED,
      CreatedAt := stamp 8, UpdatedAt := stamp 9 },
    { Id := "order-999", UserId := "user-001",
      Items := [],
      TotalAmount := 0, Status := .ORDER_STATUS_CANCELLED,
      CreatedAt := stamp 10, UpdatedAt := stamp 11 },
    { Id := "order-998", UserId := "user-001",
      Items := [⟨"prod-notfound", 1, 99.99⟩],
      TotalAmount := 99.99, Status := .ORDER_STATUS_PENDING,
      CreatedAt := stamp 12, UpdatedAt := stamp 13 },
    { Id := "order-997", UserId := "user-001",
      Items := [⟨"prod-999", 1, 99.99⟩],
      TotalAmount := 99.99, Status := .ORDER_STATUS_PENDING,
      CreatedAt := stamp 14, UpdatedAt := stamp 15 } ]

/-- The method `seedOrders`: stores every seed order in the primary map and appends it to its
user's list, then sets the counter to 8. -/
def seedOrders (stamp : Nat → String) (s : orderServer F) : orderServer F :=
  let s := (seedList stamp).foldl
    (fun s order =>
      { s with
        orders := s.orders.store order.Id order
        userOrders := s.userOrders.store order.UserId
          (s.userOrders.index [] order.UserId ++ [order]) })
    s
  { s with orderCounter := 8 }

/-- The function `NewOrderServer`: empty maps, counter 1, maintenance off, then the seed. -/
def NewOrderServer (stamp : Nat → String) : orderServer F :=
  seedOrders stamp
    { orders := [], userOrders := [], orderCounter := 1, maintenanceMode := false }

/-- The method `GetOrder`. -/
def GetOrder (marshal : Marshal) (s : orderServer F) (req : pb.GetOrderRequest) :
    GoResult (pb.GetOrderResponse F) :=
  if s.maintenanceMode then
    .ret none (errorutil.UnavailableError marshal "order service is under maintenance"
      pb.OrderErrorReason.ORDER_ERROR_REASON_MAINTENANCE)
  else
    match s.orders.lookup req.OrderId with
    | none =>
      .ret none (errorutil.FailedPreconditionError marshal
        pb.OrderFailureCode.ORDER_FAILURE_CODE_ORDER_NOT_FOUND
        "OrderService/GetOrder" ("Order not found: " ++ req.OrderId))
    | some order =>
      if order.Status = pb.OrderStatus.ORDER_STATUS_CANCELLED then
        .ret none (errorutil.FailedPreconditionError marshal
          pb.OrderFailureCode.ORDER_FAILURE_CODE_ORDER_CANCELLED
          "OrderService/GetOrder" "This order is cancelled and cannot be viewed.")
      else if order.Items.length = 0 then
        .ret none (errorutil.FailedPreconditionError marshal
          pb.OrderFailureCode.ORDER_FAILURE_CODE_ORDER_NO_ITEMS
          "OrderService/GetOrder" "This order has no items.")
      else
        .ret (some { Order := order }) none

/-- The method `ListOrdersByUser`. A missing user reads as the nil slice, which the code
replaces by an empty one; both are the empty list here. `start` and `end` are Go `int`s; for
`int32` request fields their sum cannot leave the 64-bit range. The slice expression
`orders[start:end]` panics unless `0 ≤ start ≤ end` (`end ≤ len(orders)` holds by
construction). -/
def ListOrdersByUser (s : orderServer F) (req : pb.ListOrdersByUserRequest) :
    GoResult (pb.ListOrdersByUserResponse F) :=
  let orders := s.userOrders.index [] req.UserId
  let start : Int := req.Offset
  let start := if start > orders.length then (orders.length : Int) else start
  let end_ : Int := start + req.Limit
  let end_ := if end_ > orders.length then (orders.length : Int) else end_
  if 0 ≤ start ∧ start ≤ end_ then
    .ret (some
      { Orders := (orders.drop start.toNat).take (end_.toNat - start.toNat)
        Total := int32 orders.length }) none
  else
    .panic

/-- The method `CreateOrder`: the new state and the returned pair. `createdAt` and
`updatedAt` are the two timestamps the call formats. -/
def CreateOrder (s : orderServer F) (req : pb.CreateOrderRequest F)
    (createdAt updatedAt : String) : orderServer F × GoResult (pb.CreateOrderResponse F) :=
  let orderId := "order-" ++ sprintf03d s.orderCounter
  let orderCounter := wrapInt (s.orderCounter + 1)
  let totalAmount : F :=
    req.Items.foldl (fun totalAmount item => totalAmount + item.Price * GoFloat64.ofInt32 item.Quantity) 0
  let order : pb.Order F :=
    { Id := orderId
      UserId := req.UserId
      Items := req.Items
      TotalAmount := totalAmount
      Status := pb.OrderStatus.ORDER_STATUS_PENDING
      CreatedAt := createdAt
      UpdatedAt := updatedAt }
  ({ s with
      orderCounter := orderCounter
      orders := s.orders.store orderId order
      userOrders := s.userOrders.store req.UserId (s.userOrders.index [] req.UserId ++ [order]) },
    .ret (some { Order := order }) none)

end orderServer

/-! ## backend/user/server.go -/

/-- The struct `userServer`. -/
structure userServer where
  users : GoMap pb.User
  maintenanceMode : Bool

namespace userServer

/-- The function `NewUserServer`; `stamp k` is the `k`-th timestamp of the map literal. -/
def NewUserServer (stamp : Nat → String) : userServer :=
  { maintenanceMode := false
    users :=
      [ ("user-001", ⟨"user-001", "Alice Johnson", "alice@example.com", 28, stamp 0⟩),
        ("user-002", ⟨"user-002", "Bob Smith", "bob@example.com", 35, stamp 1⟩),
        ("user-003", ⟨"user-003", "Charlie Brown", "charlie@example.com", 42, stamp 2⟩),
        ("user-999", ⟨"user-999", "Suspended User", "suspended@suspended.example.com", 30,
          stamp 3⟩) ] }

/-- The method `GetUser`. -/
def GetUser (marshal : Marshal) (s : userServer) (req : pb.GetUserRequest) :
    GoResult pb.GetUserResponse :=
  if s.maintenanceMode then
    .ret none (errorutil.UnavailableError marshal "user service is under maintenance"
      pb.UserErrorReason.USER_ERROR_REASON_MAINTENANCE)
  else
    match s.users.lookup req.UserId with
    | none =>
      .ret none (errorutil.FailedPreconditionError marshal
        pb.UserFailureCode.USER_FAILURE_CODE_USER_NOT_FOUND
        "UserService/GetUser" ("User not found: " ++ req.UserId))
    | some user =>
      if user.Email ≠ "" ∧ len user.Email > len "@suspended.example.com" then
        if sliceFrom user.Email (len user.Email - len "@suspended.example.com")
            = some "@suspended.example.com" then
          .ret none (errorutil.FailedPreconditionError marshal
            pb.UserFailureCode.USER_FAILURE_CODE_USER_ACCOUNT_SUSPENDED
            "UserService/GetUser" "This account has been suspended.")
        else
          .ret (some { User := user }) none
      else
        .ret (some { User := user }) none

/-- The method `ListUsers`. `rangeOrder` gives the order in which the `range` statement
visits the entries of the map, which the Go runtime picks anew for every loop. The slice
expression `users[start:end]` panics unless `0 ≤ start ≤ end`. -/
def ListUsers (rangeOrder : GoMap pb.User → GoMap pb.User) (s : userServer)
    (req : pb.ListUsersRequest) : GoResult pb.ListUsersResponse :=
  let users : List pb.User :=
    (rangeOrder s.users).foldl (fun users entry => users ++ [entry.2]) []
  let start : Int := req.Offset
  let start := if start > users.length then (users.length : Int) else start
  let end_ : Int := start + req.Limit
  let end_ := if end_ > users.length then (users.length : Int) else end_
  if 0 ≤ start ∧ start ≤ end_ then
    .ret (some
      { Users := (users.drop start.toNat).take (end_.toNat - start.toNat)
        Total := int32 users.length }) none
  else
    .panic

end userServer

/-! ## backend/product/server.go -/

/-- The struct `productServer`. -/
structure productServer (F : Type) where
  products : GoMap (pb.Product F)
  maintenanceMode : Bool

namespace productServer

variable {F : Type} [GoFloat64 F]

/-- The function `NewProductServer`; `stamp k` is the `k`-th timestamp of the map literal. -/
def NewProductServer (stamp : Nat → String) : productServer F :=
  { maintenanceMode := false
    products :=
      [ ("prod-001", ⟨"prod-001", "Laptop Pro 15",
          "High-performance laptop with 15-inch display", 1299.99, "Electronics", 50, stamp 0⟩),
        ("prod-002", ⟨"prod-002", "Wireless Mouse",
          "Ergonomic wireless mouse with long battery life", 29.99, "Accessories", 200,
          stamp 1⟩),
        ("prod-003", ⟨"prod-003", "USB-C Hub",
          "7-in-1 USB-C hub with HDMI and card reader", 49.99, "Accessories", 150, stamp 2⟩),
        ("prod-004", ⟨"prod-004", "Mechanical Keyboard",
          "RGB mechanical keyboard with blue switches", 89.99, "Accessories", 75, stamp 3⟩),
        ("prod-005", ⟨"prod-005", "4K Monitor",
          "27-inch 4K IPS monitor with HDR support", 399.99, "Electronics", 30, stamp 4⟩),
        ("prod-999", ⟨"prod-999", "Out of Stock Item",
          "This product is out of stock", 99.99, "Test", 0, stamp 5⟩) ] }

/-- The method `GetProduct`. -/
def GetProduct (marshal : Marshal) (s : productServer F) (req : pb.GetProductRequest) :
    GoResult (pb.GetProductResponse F) :=
  if s.maintenanceMode then
    .ret none (errorutil.UnavailableError marshal "product service is under maintenance"
      pb.ProductErrorReason.PRODUCT_ERROR_REASON_MAINTENANCE)
  else
    match s.products.lookup req.ProductId with
    | none =>
      .ret none (errorutil.FailedPreconditionError marshal
        pb.ProductFailureCode.PRODUCT_FAILURE_CODE_PRODUCT_NOT_FOUND
        "ProductService/GetProduct" ("Product not found: " ++ req.ProductId))
    | some product =>
      if product.Stock = 0 then
        .ret none (errorutil.FailedPreconditionError marshal
          pb.ProductFailureCode.PRODUCT_FAILURE_CODE_PRODUCT_OUT_OF_STOCK
          "ProductService/GetProduct" ("Product is out of stock: " ++ req.ProductId))
      else
        .ret (some { Product := product }) none

/-- The method `ListProducts`. `rangeOrder` gives the order in which the `range` statement
visits the entries of the map. The slice expression `products[start:end]` panics unless
`0 ≤ start ≤ end`. -/
def ListProducts (rangeOrder : GoMap (pb.Product F) → GoMap (pb.Product F))
    (s : productServer F) (req : pb.ListProductsRequest) :
    GoResult (pb.ListProductsResponse F) :=
  let products : List (pb.Product F) :=
    (rangeOrder s.products).foldl
      (fun products entry =>
        if req.Category = "" ∨ entry.2.Category = req.Category then products ++ [entry.2]
        else products)
      []
  let start : Int := req.Offset
  let start := if start > products.length then (products.length : Int) else start
  let end_ : Int := start + req.Limit
  let end_ := if end_ > products.length then (products.length : Int) else end_
  if 0 ≤ start ∧ start ≤ end_ then
    .ret (some
      { Products := (products.drop start.toNat).take (end_.toNat - start.toNat)
        Total := int32 products.length }) none
  else
    .panic

/-- The method `GetProductsByIDs`. -/
def GetProductsByIDs (s : productServer F) (req : pb.GetProductsByIDsRequest) :
    GoResult (pb.GetProductsByIDsResponse F) :=
  let products : List (pb.Product F) :=
    req.ProductIds.foldl
      (fun products id =>
        match s.products.lookup id with
        | some product => products ++ [product]
        | none => products)
      []
  .ret (some { Products := products }) none

end productServer

/-! ## bff/server.go -/

/-- The struct `clientFactory`. The three client interfaces belong to the generated package
`proto/backend`, which is not among the sources: the types `U`, `P`, `O` of the handles are
parameters. -/
structure clientFactory (U P O : Type) where
  userClient : U
  productClient : P
  orderClient : O

namespace clientFactory

variable {U P O Cfg : Type}

/-- The method `Order_OrderServiceClient`: the factory after the call, the returned handle
and the returned error. `Cfg` stands for the generated type `BFFServiceClientConfig`. -/
def Order_OrderServiceClient (f : clientFactory U P O) (_cfg : Cfg) :
    clientFactory U P O × O × Option Status :=
  (f, f.orderClient, none)

/-- The method `Product_ProductServiceClient`. -/
def Product_ProductServiceClient (f : clientFactory U P O) (_cfg : Cfg) :
    clientFactory U P O × P × Option Status :=
  (f, f.productClient, none)

/-- The method `User_UserServiceClient`. -/
def User_UserServiceClient (f : clientFactory U P O) (_cfg : Cfg) :
    clientFactory U P O × U × Option Status :=
  (f, f.userClient, none)

end clientFactory

/-! ## Notions used to state the properties -/

namespace orderServer

variable {F : Type} [GoFloat64 F]

/-- One `CreateOrder` call of a run: the request and the two timestamps of the call. -/
abbrev CreateCall (F : Type) := pb.CreateOrderRequest F × String × String

/-- The state after a finite sequence of `CreateOrder` calls. -/
def runCreates (s : orderServer F) (calls : List (CreateCall F)) : orderServer F :=
  calls.foldl (fun s call => (CreateOrder s call.1 call.2.1 call.2.2).1) s

/-- The user's order sequence in the secondary index (empty when the user has none). -/
def ordersOf (s : orderServer F) (userId : String) : List (pb.Order F) :=
  s.userOrders.index [] userId

/-- The orders of the page that `ListOrdersByUser` returns for a user, a limit and an offset
(no orders when the call returns no response). -/
def pageAt (s : orderServer F) (userId : String) (limit offset : Int) : List (pb.Order F) :=
  match ListOrdersByUser s ⟨userId, limit, offset⟩ with
  | .ret (some resp) _ => resp.Orders
  | _ => []

/-- Consistency of the primary map with the secondary index: every order of a user's index
list is listed under its own user and is the order the primary map stores under its
identifier, and every stored order appears in the index list of its user. -/
def Consistent (s : orderServer F) : Prop :=
  (∀ userId o, o ∈ ordersOf s userId → o.UserId = userId ∧ s.orders.lookup o.Id = some o) ∧
  (∀ orderId o, s.orders.lookup orderId = some o → o ∈ ordersOf s o.UserId)

end orderServer

/-! # Properties -/

namespace GoMap

variable {V : Type}

/-- Reading the key just stored yields the stored value. -/
theorem lookup_store_self (m : GoMap V) (k : String) (v : V) :
    (m.store k v).lookup k = some v := by
  induction m with
  | nil => simp [store, lookup]
  | cons e m ih =>
    obtain ⟨k', v'⟩ := e
    by_cases h : k' = k
    · simp [store, lookup, h]
    · simp [store, lookup, h, ih]

/-- Storing under one key leaves the reads of every other key unchanged. -/
theorem lookup_store_ne (m : GoMap V) {k k' : String} (v : V) (h : k' ≠ k) :
    (m.store k v).lookup k' = m.lookup k' := by
  induction m with
  | nil =>
    have h' : ¬ k = k' := fun e => h e.symm
    simp [store, lookup, h']
  | cons e m ih =>
    obtain ⟨k₀, v₀⟩ := e
    by_cases h₀ : k₀ = k
    · subst h₀
      have h' : ¬ k₀ = k' := fun e => h e.symm
      simp [store, lookup, h']
    · by_cases h₁ : k₀ = k'
      · subst h₁
        simp [store, lookup, h₀]
      · simp [store, lookup, h₀, h₁, ih]

/-- The plain read of the key just stored. -/
theorem index_store_self (zero : V) (m : GoMap V) (k : String) (v : V) :
    (m.store k v).index zero k = v := by
  simp [index, lookup_store_self]

/-- The plain read of another key is unchanged by a store. -/
theorem index_store_ne (zero : V) (m : GoMap V) {k k' : String} (v : V) (h : k' ≠ k) :
    (m.store k v).index zero k' = m.index zero k' := by
  simp [index, lookup_store_ne m v h]

end GoMap

section ErrorUtil

open errorutil

/-- The precondition error in closed form: always a FAILED_PRECONDITION error, with the one
violation attached when the detail marshals and with the description as message otherwise. -/
theorem FailedPreconditionError_eq {α : Type} [FailureCodeStringer α] (marshal : Marshal)
    (failureCode : α) (subject description : String) :
    FailedPreconditionError marshal failureCode subject description =
      some (if marshal (Detail.PreconditionFailure
                [⟨FailureCodeStringer.String failureCode, subject, description⟩]) = none then
              ⟨Code.FailedPrecondition, "",
                [Detail.PreconditionFailure
                  [⟨FailureCodeStringer.String failureCode, subject, description⟩]]⟩
            else ⟨Code.FailedPrecondition, description, []⟩) := by
  unfold FailedPreconditionError
  simp only [Status.WithDetails, status.New, status.Error, Status.Err]
  cases h : marshal (Detail.PreconditionFailure
      [⟨FailureCodeStringer.String failureCode, subject, description⟩]) <;> simp

/-- The unavailability error in closed form. -/
theorem UnavailableError_eq {ρ : Type} [ErrorReasonStringer ρ] (marshal : Marshal)
    (err : String) (reason : ρ) :
    UnavailableError marshal err reason =
      some (match marshal (Detail.ErrorInfo (ErrorReasonStringer.String reason)) with
            | none => ⟨Code.Unavailable, err,
                [Detail.ErrorInfo (ErrorReasonStringer.String reason)]⟩
            | some withErr => ⟨Code.Internal, "failed to set details: " ++ withErr, []⟩) := by
  unfold UnavailableError
  simp only [Status.WithDetails, status.New, status.Error, Status.Err]
  cases h : marshal (Detail.ErrorInfo (ErrorReasonStringer.String reason)) <;> simp

end ErrorUtil

namespace orderServer

variable {F : Type}

open errorutil pb

/-- C1. `GetOrder` decides in the order maintenance, not found, cancelled, no items, success:
under maintenance it returns the error `UnavailableError` builds for the maintenance reason;
otherwise, for an identifier that is not stored, the error `FailedPreconditionError` builds
for the order-not-found code; otherwise, for a stored order that is cancelled, the one for the
order-cancelled code, whatever its item list is (so also when it is empty); otherwise, for an
empty item list, the one for the order-no-items code; otherwise the stored order and no
error. Every error is a real (non-nil) error, the cancelled and the no-items errors differ,
and with the details attached the four errors are the UNAVAILABLE status with the reason
`ORDER_ERROR_REASON_MAINTENANCE` and the FAILED_PRECONDITION statuses with the single
violation of the respective code. -/
theorem GetOrder_decision_order (marshal : Marshal) (s : orderServer F)
    (req : GetOrderRequest) :
    (s.maintenanceMode = true →
      GetOrder marshal s req = .ret none
        (UnavailableError marshal "order service is under maintenance"
          OrderErrorReason.ORDER_ERROR_REASON_MAINTENANCE)) ∧
    (s.maintenanceMode = false → s.orders.lookup req.OrderId = none →
      GetOrder marshal s req = .ret none
        (FailedPreconditionError marshal OrderFailureCode.ORDER_FAILURE_CODE_ORDER_NOT_FOUND
          "OrderService/GetOrder" ("Order not found: " ++ req.OrderId))) ∧
    (∀ order, s.maintenanceMode = false → s.orders.lookup req.OrderId = some order →
      order.Status = OrderStatus.ORDER_STATUS_CANCELLED →
      GetOrder marshal s req = .ret none
        (FailedPreconditionError marshal OrderFailureCode.ORDER_FAILURE_CODE_ORDER_CANCELLED
          "OrderService/GetOrder" "This order is cancelled and cannot be viewed.")) ∧
    (∀ order, s.maintenanceMode = false → s.orders.lookup req.OrderId = some order →
      order.Status ≠ OrderStatus.ORDER_STATUS_CANCELLED → order.Items = [] →
      GetOrder marshal s req = .ret none
        (FailedPreconditionError marshal OrderFailureCode.ORDER_FAILURE_CODE_ORDER_NO_ITEMS
          "OrderService/GetOrder" "This order has no items.")) ∧
    (∀ order, s.maintenanceMode = false → s.orders.lookup req.OrderId = some order →
      order.Status ≠ OrderStatus.ORDER_STATUS_CANCELLED → order.Items ≠ [] →
      GetOrder marshal s req = .ret (some { Order := order }) none) ∧
    (UnavailableError marshal "order service is under maintenance"
        OrderErrorReason.ORDER_ERROR_REASON_MAINTENANCE).isSome = true ∧
    (FailedPreconditionError marshal OrderFailureCode.ORDER_FAILURE_CODE_ORDER_NOT_FOUND
        "OrderService/GetOrder" ("Order not found: " ++ req.OrderId)).isSome = true ∧
    (FailedPreconditionError marshal OrderFailureCode.ORDER_FAILURE_CODE_ORDER_CANCELLED
        "OrderService/GetOrder" "This order is cancelled and cannot be viewed.").isSome = true ∧
    (FailedPreconditionError marshal OrderFailureCode.ORDER_FAILURE_CODE_ORDER_NO_ITEMS
        "OrderService/GetOrder" "This order has no items.").isSome = true ∧
    FailedPreconditionError marshal OrderFailureCode.ORDER_FAILURE_CODE_ORDER_CANCELLED
        "OrderService/GetOrder" "This order is cancelled and cannot be viewed." ≠
      FailedPreconditionError marshal OrderFailureCode.ORDER_FAILURE_CODE_ORDER_NO_ITEMS
        "OrderService/GetOrder" "This order has no items." ∧
    ((∀ d, marshal d = none) →
      UnavailableError marshal "order service is under maintenance"
          OrderErrorReason.ORDER_ERROR_REASON_MAINTENANCE =
        some ⟨Code.Unavailable, "order service is under maintenance",
          [Detail.ErrorInfo "ORDER_ERROR_REASON_MAINTENANCE"]⟩ ∧
      FailedPreconditionError marshal OrderFailureCode.ORDER_FAILURE_CODE_ORDER_NOT_FOUND
          "OrderService/GetOrder" ("Order not found: " ++ req.OrderId) =
        some ⟨Code.FailedPrecondition, "",
          [Detail.PreconditionFailure [⟨"ORDER_FAILURE_CODE_ORDER_NOT_FOUND",
            "OrderService/GetOrder", "Order not found: " ++ req.OrderId⟩]]⟩ ∧
      FailedPreconditionError marshal OrderFailureCode.ORDER_FAILURE_CODE_ORDER_CANCELLED
          "OrderService/GetOrder" "This order is cancelled and cannot be viewed." =
        some ⟨Code.FailedPrecondition, "",
          [Detail.PreconditionFailure [⟨"ORDER_FAILURE_CODE_ORDER_CANCELLED",
            "OrderService/GetOrder", "This order is cancelled and cannot be viewed."⟩]]⟩ ∧
      FailedPreconditionError marshal OrderFailureCode.ORDER_FAILURE_CODE_ORDER_NO_ITEMS
          "OrderService/GetOrder" "This order has no items." =
        some ⟨Code.FailedPrecondition, "",
          [Detail.PreconditionFailure [⟨"ORDER_FAILURE_CODE_ORDER_NO_ITEMS",
            "OrderService/GetOrder", "This order has no items."⟩]]⟩) := by
  refine ⟨?_, ?_, ?_, ?_, ?_, ?_, ?_, ?_, ?_, ?_, ?_⟩
  · intro hm
    simp [GetOrder, hm]
  · intro hm hl
    simp [GetOrder, hm, hl]
  · intro order hm hl hc
    simp [GetOrder, hm, hl, hc]
  · intro order hm hl hc hi
    simp [GetOrder, hm, hl, hc, hi]
  · intro order hm hl hc hi
    simp [GetOrder, hm, hl, hc, hi]
  · simp [UnavailableError_eq]
  · simp [FailedPreconditionError_eq]
  · simp [FailedPreconditionError_eq]
  · simp [FailedPreconditionError_eq]
  · rw [FailedPreconditionError_eq, FailedPreconditionError_eq]
    simp only [FailureCodeStringer.String, ne_eq, Option.some.injEq]
    split <;> split <;> simp
  · intro ha
    simp [FailedPreconditionError_eq, UnavailableError_eq, ha, FailureCodeStringer.String,
      ErrorReasonStringer.String]

/-- The seeded server, with rational amounts and every timestamp written `t`. -/
theorem seed_lookup_999 :
    (NewOrderServer (fun _ => "t") : orderServer ℚ).orders.lookup "order-999" =
      some ⟨"order-999", "user-001", [], 0, OrderStatus.ORDER_STATUS_CANCELLED, "t", "t"⟩ := by
  rfl

/-- C1 at the seed order `order-999`, which is cancelled and has no items: the cancelled
violation is returned. -/
theorem GetOrder_decision_order_witness :
    GetOrder (fun _ => none) (NewOrderServer (fun _ => "t") : orderServer ℚ) ⟨"order-999"⟩ =
      .ret none
        (FailedPreconditionError (fun _ => none)
          OrderFailureCode.ORDER_FAILURE_CODE_ORDER_CANCELLED
          "OrderService/GetOrder" "This order is cancelled and cannot be viewed.") :=
  (GetOrder_decision_order (fun _ => none) (NewOrderServer (fun _ => "t") : orderServer ℚ)
    ⟨"order-999"⟩).2.2.1 _ rfl seed_lookup_999 rfl

/-- Accumulating `acc + f x` over a list is accumulating `+` over the mapped list. -/
theorem foldl_add_map {α β : Type} [Add β] (f : α → β) (xs : List α) (acc : β) :
    xs.foldl (fun acc x => acc + f x) acc = (xs.map f).foldl (fun acc y => acc + y) acc := by
  induction xs generalizing acc with
  | nil => rfl
  | cons x xs ih => simp only [List.foldl_cons, List.map_cons, ih]

/-- C2. `CreateOrder` returns no error and the order whose total is the sum of
`price * quantity` over the request's items, accumulated from zero in the order of the items
(0 for an empty list), whose status is pending and whose user and items are those of the
request. The request carries no total, and the total is the same whatever the state, the
user and the timestamps are: it is computed from the items alone. -/
theorem CreateOrder_total_from_items [GoFloat64 F] (s : orderServer F)
    (req : CreateOrderRequest F) (createdAt updatedAt : String) :
    (CreateOrder s req createdAt updatedAt).2 =
      .ret (some
        { Order :=
          { Id := "order-" ++ sprintf03d s.orderCounter
            UserId := req.UserId
            Items := req.Items
            TotalAmount :=
              (req.Items.map (fun item => item.Price * GoFloat64.ofInt32 item.Quantity)).foldl
                (fun sum amount => sum + amount) 0
            Status := OrderStatus.ORDER_STATUS_PENDING
            CreatedAt := createdAt
            UpdatedAt := updatedAt } }) none ∧
    (∀ (s' : orderServer F) (userId created updated : String),
      (CreateOrder s' ⟨userId, []⟩ created updated).2 =
        .ret (some ⟨⟨"order-" ++ sprintf03d s'.orderCounter, userId, [], 0,
          OrderStatus.ORDER_STATUS_PENDING, created, updated⟩⟩) none) ∧
    (∀ (s' : orderServer F) (userId created updated : String),
      ∃ o o', (CreateOrder s req createdAt updatedAt).2 = .ret (some ⟨o⟩) none ∧
        (CreateOrder s' ⟨userId, req.Items⟩ created updated).2 = .ret (some ⟨o'⟩) none ∧
        o'.TotalAmount = o.TotalAmount) := by
  refine ⟨?_, ?_, ?_⟩
  · simp only [CreateOrder, foldl_add_map]
  · intro s' userId created updated
    simp only [CreateOrder, List.foldl_nil]
  · intro s' userId created updated
    exact ⟨_, _, rfl, rfl, rfl⟩

/-- In exact arithmetic the accumulated total is the sum of the list of amounts. -/
theorem CreateOrder_total_exact (s : orderServer ℚ) (req : CreateOrderRequest ℚ)
    (createdAt updatedAt : String) :
    ∃ o, (CreateOrder s req createdAt updatedAt).2 = .ret (some ⟨o⟩) none ∧
      o.TotalAmount = (req.Items.map (fun item => item.Price * (item.Quantity : ℚ))).sum := by
  refine ⟨_, rfl, ?_⟩
  have h : ∀ (xs : List ℚ) (acc : ℚ), xs.foldl (fun a y => a + y) acc = acc + xs.sum := by
    intro xs
    induction xs with
    | nil => intro acc; simp
    | cons x xs ih => intro acc; simp [ih, add_assoc]
  have h0 := h (req.Items.map (fun item => item.Price * (item.Quantity : ℚ))) 0
  rw [zero_add] at h0
  rw [← h0, ← foldl_add_map]
  rfl

/-- A value inside the 64-bit range is not changed by the wrap-around. -/
theorem wrapInt_of_range {n : Int} (h₀ : -(2 ^ 63) ≤ n) (h₁ : n < 2 ^ 63) : wrapInt n = n := by
  unfold wrapInt
  omega

/-- The state component of `CreateOrder`, field by field. -/
theorem CreateOrder_state [GoFloat64 F] (s : orderServer F) (req : CreateOrderRequest F)
    (createdAt updatedAt : String) :
    (CreateOrder s req createdAt updatedAt).1.orderCounter = wrapInt (s.orderCounter + 1) ∧
    (CreateOrder s req createdAt updatedAt).1.maintenanceMode = s.maintenanceMode ∧
    (∃ o, (CreateOrder s req createdAt updatedAt).2 = .ret (some ⟨o⟩) none ∧
      o.Id = "order-" ++ sprintf03d s.orderCounter ∧ o.UserId = req.UserId ∧
      (CreateOrder s req createdAt updatedAt).1.orders = s.orders.store o.Id o ∧
      (CreateOrder s req createdAt updatedAt).1.userOrders =
        s.userOrders.store req.UserId (ordersOf s req.UserId ++ [o])) :=
  ⟨rfl, rfl, _, rfl, rfl, rfl, rfl, rfl⟩

/-- A run of one more call is the run followed by that call. -/
theorem runCreates_append_one [GoFloat64 F] (s : orderServer F) (calls : List (CreateCall F))
    (call : CreateCall F) :
    runCreates s (calls ++ [call]) =
      (CreateOrder (runCreates s calls) call.1 call.2.1 call.2.2).1 := by
  simp [runCreates, List.foldl_append]

/-- While the counter stays in range, a run of `n` calls advances it by `n`. -/
theorem runCreates_counter [GoFloat64 F] (calls : List (CreateCall F)) (s : orderServer F)
    (h₀ : 0 ≤ s.orderCounter) (h₁ : s.orderCounter + calls.length < 2 ^ 63) :
    (runCreates s calls).orderCounter = s.orderCounter + calls.length := by
  induction calls generalizing s with
  | nil => simp [runCreates]
  | cons call calls ih =>
    have hc : (CreateOrder s call.1 call.2.1 call.2.2).1.orderCounter = s.orderCounter + 1 := by
      rw [(CreateOrder_state s call.1 call.2.1 call.2.2).1]
      simp only [List.length_cons, Nat.cast_add, Nat.cast_one] at h₁
      exact wrapInt_of_range (by omega) (by omega)
    have := ih (CreateOrder s call.1 call.2.1 call.2.2).1 (by omega)
      (by simp only [List.length_cons, Nat.cast_add, Nat.cast_one] at h₁; omega)
    simp only [runCreates, List.foldl_cons] at this ⊢
    rw [this, hc]
    simp only [List.length_cons, Nat.cast_add, Nat.cast_one]
    omega

/-- A run leaves the index list of every user that places no order in it unchanged. -/
theorem runCreates_ordersOf_other [GoFloat64 F] (calls : List (CreateCall F))
    (s : orderServer F) (userId : String) (h : ∀ call ∈ calls, call.1.UserId ≠ userId) :
    ordersOf (runCreates s calls) userId = ordersOf s userId := by
  induction calls generalizing s with
  | nil => simp [runCreates]
  | cons call calls ih =>
    have h' : ∀ c ∈ calls, c.1.UserId ≠ userId := fun c hc => h c (List.mem_cons_of_mem _ hc)
    have hne : userId ≠ call.1.UserId := fun e => h call (List.mem_cons_self _ _) e.symm
    have := ih (CreateOrder s call.1 call.2.1 call.2.2).1 h'
    simp only [runCreates, List.foldl_cons] at this ⊢
    rw [this]
    simp only [ordersOf, CreateOrder]
    exact GoMap.index_store_ne _ _ _ hne

/-- A run leaves the primary-map entry of an identifier unchanged when none of the counter
values it passes through formats to that identifier. -/
theorem runCreates_lookup_of_fresh [GoFloat64 F] (calls : List (CreateCall F))
    (s : orderServer F) (orderId : String)
    (h₀ : 0 ≤ s.orderCounter) (h₁ : s.orderCounter + calls.length < 2 ^ 63)
    (h : ∀ c : Int, s.orderCounter ≤ c → c < s.orderCounter + calls.length →
      "order-" ++ sprintf03d c ≠ orderId) :
    (runCreates s calls).orders.lookup orderId = s.orders.lookup orderId := by
  induction calls generalizing s with
  | nil => simp [runCreates]
  | cons call calls ih =>
    simp only [List.length_cons, Nat.cast_add, Nat.cast_one] at h₁ h
    have hc : (CreateOrder s call.1 call.2.1 call.2.2).1.orderCounter = s.orderCounter + 1 := by
      rw [(CreateOrder_state s call.1 call.2.1 call.2.2).1]
      exact wrapInt_of_range (by omega) (by omega)
    have := ih (CreateOrder s call.1 call.2.1 call.2.2).1 (by omega) (by omega)
      (fun c hc₀ hc₁ => h c (by omega) (by omega))
    simp only [runCreates, List.foldl_cons] at this ⊢
    rw [this]
    simp only [CreateOrder]
    exact GoMap.lookup_store_ne _ _ (fun e => h s.orderCounter (by omega) (by omega) e.symm)

set_option maxRecDepth 100000 in
/-- Reading the digits after `order-` gives the counter back, for the counters below 1000. -/
theorem sprintf_digits_below_1000 :
    ∀ c : Nat, c < 1000 →
      (("order-" ++ sprintf03d (c : Int)).data.drop 6).foldl
        (fun n ch => n * 10 + (ch.toNat - 48)) 0 = c := by
  decide

/-- Counters below 1000 format to different identifiers. -/
theorem sprintf_injective_below_1000 {c c' : Nat} (h : c < 1000) (h' : c' < 1000)
    (e : "order-" ++ sprintf03d (c : Int) = "order-" ++ sprintf03d (c' : Int)) : c = c' := by
  have h₁ := sprintf_digits_below_1000 c h
  have h₂ := sprintf_digits_below_1000 c' h'
  rw [e] at h₁
  exact h₁.symm.trans h₂

/-- None of the counter values 0 to 996 formats to the seed identifier `order-997`. -/
theorem sprintf_ne_order_997 :
    ∀ c : Nat, c < 997 → "order-" ++ sprintf03d (c : Int) ≠ "order-997" := by
  intro c hc e
  have h997 : "order-" ++ sprintf03d ((997 : Nat) : Int) = "order-997" := by decide
  have := sprintf_injective_below_1000 (by omega) (by decide) (e.trans h997.symm)
  omega

/-- The seeded server stores the seed order `order-997` of `user-001`. -/
theorem seed_lookup_997 :
    (NewOrderServer (fun _ => "t") : orderServer ℚ).orders.lookup "order-997" =
      some ⟨"order-997", "user-001", [⟨"prod-999", 1, 99.99⟩], 99.99,
        OrderStatus.ORDER_STATUS_PENDING, "t", "t"⟩ := by
  rfl

/-- The index list of `user-001` in the seeded server ends with the seed order `order-997`. -/
theorem seed_ordersOf_user_001 :
    (⟨"order-997", "user-001", [⟨"prod-999", 1, 99.99⟩], 99.99,
        OrderStatus.ORDER_STATUS_PENDING, "t", "t"⟩ : Order ℚ) ∈
      ordersOf (NewOrderServer (fun _ => "t") : orderServer ℚ) "user-001" := by
  have h : ordersOf (NewOrderServer (fun _ => "t") : orderServer ℚ) "user-001" =
      [ ⟨"order-001", "user-001", [⟨"prod-001", 1, 1299.99⟩, ⟨"prod-002", 2, 29.99⟩], 1359.97,
          OrderStatus.ORDER_STATUS_DELIVERED, "t", "t"⟩,
        ⟨"order-002", "user-001", [⟨"prod-003", 1, 49.99⟩, ⟨"prod-004", 1, 89.99⟩], 139.98,
          OrderStatus.ORDER_STATUS_PROCESSING, "t", "t"⟩,
        ⟨"order-999", "user-001", [], 0, OrderStatus.ORDER_STATUS_CANCELLED, "t", "t"⟩,
        ⟨"order-998", "user-001", [⟨"prod-notfound", 1, 99.99⟩], 99.99,
          OrderStatus.ORDER_STATUS_PENDING, "t", "t"⟩,
        ⟨"order-997", "user-001", [⟨"prod-999", 1, 99.99⟩], 99.99,
          OrderStatus.ORDER_STATUS_PENDING, "t", "t"⟩ ] := by
    rfl
  rw [h]
  simp

/-- The state after 989 calls from the seed: the counter stands at 997, the primary map still
stores the seed order `order-997`, and `user-001` still has its seed index list. -/
theorem state_after_989_calls :
    (runCreates (NewOrderServer (fun _ => "t") : orderServer ℚ)
        (List.replicate 989 (⟨"user-002", []⟩, "t", "t"))).orderCounter = 997 ∧
    (runCreates (NewOrderServer (fun _ => "t") : orderServer ℚ)
        (List.replicate 989 (⟨"user-002", []⟩, "t", "t"))).orders.lookup "order-997" =
      some ⟨"order-997", "user-001", [⟨"prod-999", 1, 99.99⟩], 99.99,
        OrderStatus.ORDER_STATUS_PENDING, "t", "t"⟩ ∧
    ordersOf (runCreates (NewOrderServer (fun _ => "t") : orderServer ℚ)
        (List.replicate 989 (⟨"user-002", []⟩, "t", "t"))) "user-001" =
      ordersOf (NewOrderServer (fun _ => "t") : orderServer ℚ) "user-001" := by
  have hc : (NewOrderServer (fun _ => "t") : orderServer ℚ).orderCounter = 8 := rfl
  refine ⟨?_, ?_, ?_⟩
  · rw [runCreates_counter _ _ (by rw [hc]; decide)
      (by rw [hc, List.length_replicate]; norm_num), hc, List.length_replicate]
    norm_num
  · rw [runCreates_lookup_of_fresh _ _ _ (by rw [hc]; decide)
      (by rw [hc, List.length_replicate]; norm_num), seed_lookup_997]
    intro c h₀ h₁
    rw [hc] at h₀
    rw [hc, List.length_replicate] at h₁
    have hlt : c.toNat < 997 := by omega
    have := sprintf_ne_order_997 c.toNat hlt
    rwa [Int.toNat_of_nonneg (by omega)] at this
  · apply runCreates_ordersOf_other
    intro call hcall
    rw [List.eq_of_mem_replicate hcall]
    decide

/-- C3, at the failing input. After 989 `CreateOrder` calls on the freshly seeded server the
counter is 997, so the next call assigns the identifier `order-997`, under which the primary
map already stores a seed order of `user-001`; the call replaces that entry by the new
order. -/
theorem CreateOrder_reuses_seed_identifier :
    (runCreates (NewOrderServer (fun _ => "t") : orderServer ℚ)
        (List.replicate 989 (⟨"user-002", []⟩, "t", "t"))).orders.lookup "order-997" =
      some ⟨"order-997", "user-001", [⟨"prod-999", 1, 99.99⟩], 99.99,
        OrderStatus.ORDER_STATUS_PENDING, "t", "t"⟩ ∧
    (CreateOrder (runCreates (NewOrderServer (fun _ => "t") : orderServer ℚ)
        (List.replicate 989 (⟨"user-002", []⟩, "t", "t"))) ⟨"user-002", []⟩ "t" "t").2 =
      .ret (some ⟨⟨"order-997", "user-002", [], 0, OrderStatus.ORDER_STATUS_PENDING,
        "t", "t"⟩⟩) none ∧
    (CreateOrder (runCreates (NewOrderServer (fun _ => "t") : orderServer ℚ)
        (List.replicate 989 (⟨"user-002", []⟩, "t", "t"))) ⟨"user-002", []⟩ "t" "t").1.orders.lookup
        "order-997" =
      some ⟨"order-997", "user-002", [], 0, OrderStatus.ORDER_STATUS_PENDING, "t", "t"⟩ := by
  obtain ⟨hc, hl, -⟩ := state_after_989_calls
  have hid : "order-" ++ sprintf03d 997 = "order-997" := by decide
  refine ⟨hl, ?_, ?_⟩
  · simp only [CreateOrder, hc, hid, List.foldl_nil]
  · simp only [CreateOrder, hc, hid, List.foldl_nil]
    exact GoMap.lookup_store_self _ _ _

/-- C4, at the failing input. After 990 `CreateOrder` calls on the freshly seeded server the
index list of `user-001` still holds the seed order `order-997`, while the primary map stores
another order, one of `user-002`, under that identifier: the two are not consistent. -/
theorem index_inconsistent_after_990_calls :
    ¬ Consistent (runCreates (NewOrderServer (fun _ => "t") : orderServer ℚ)
        (List.replicate 990 (⟨"user-002", []⟩, "t", "t"))) := by
  obtain ⟨hc, -, ho⟩ := state_after_989_calls
  have hid : "order-" ++ sprintf03d 997 = "order-997" := by decide
  have hrun : runCreates (NewOrderServer (fun _ => "t") : orderServer ℚ)
      (List.replicate 990 (⟨"user-002", []⟩, "t", "t")) =
      (CreateOrder (runCreates (NewOrderServer (fun _ => "t") : orderServer ℚ)
        (List.replicate 989 (⟨"user-002", []⟩, "t", "t"))) ⟨"user-002", []⟩ "t" "t").1 := by
    rw [show (990 : Nat) = 989 + 1 from rfl, List.replicate_succ', runCreates_append_one]
  intro hcons
  have hmem : (⟨"order-997", "user-001", [⟨"prod-999", 1, 99.99⟩], 99.99,
      OrderStatus.ORDER_STATUS_PENDING, "t", "t"⟩ : Order ℚ) ∈
      ordersOf (runCreates (NewOrderServer (fun _ => "t") : orderServer ℚ)
        (List.replicate 990 (⟨"user-002", []⟩, "t", "t"))) "user-001" := by
    rw [hrun]
    have : ordersOf (CreateOrder (runCreates (NewOrderServer (fun _ => "t") : orderServer ℚ)
        (List.replicate 989 (⟨"user-002", []⟩, "t", "t"))) ⟨"user-002", []⟩ "t" "t").1
        "user-001" = ordersOf (runCreates (NewOrderServer (fun _ => "t") : orderServer ℚ)
        (List.replicate 989 (⟨"user-002", []⟩, "t", "t"))) "user-001" := by
      simp only [ordersOf, CreateOrder]
      exact GoMap.index_store_ne _ _ _ (by decide)
    rw [this, ho]
    exact seed_ordersOf_user_001
  have hlook := (hcons.1 _ _ hmem).2
  rw [hrun] at hlook
  simp only [CreateOrder, hc, hid, List.foldl_nil] at hlook
  rw [GoMap.lookup_store_self] at hlook
  have huser := congrArg (fun o => o.map Order.UserId) hlook
  simp at huser

/-- For a non-negative offset and limit `ListOrdersByUser` does not panic: it returns the
slice from `min offset N` to `min (min offset N + limit) N` of the user's `N` orders and the
total `int32 N`. -/
theorem ListOrdersByUser_of_nat (s : orderServer F) (userId : String) (limit offset : Nat) :
    ListOrdersByUser s ⟨userId, (limit : Int), (offset : Int)⟩ =
      .ret (some
        { Orders := ((ordersOf s userId).drop (min offset (ordersOf s userId).length)).take
            (min (min offset (ordersOf s userId).length + limit) (ordersOf s userId).length
              - min offset (ordersOf s userId).length)
          Total := int32 (ordersOf s userId).length }) none := by
  simp only [ListOrdersByUser, ordersOf]
  generalize GoMap.index [] s.userOrders userId = orders
  by_cases h₁ : (offset : Int) > orders.length
  · have e₁ : min offset orders.length = orders.length := by omega
    simp only [h₁, if_true, e₁]
    by_cases h₂ : (orders.length : Int) + limit > orders.length
    · have e₂ : min (orders.length + limit) orders.length = orders.length := by omega
      simp [h₂, e₂]
    · have e₂ : min (orders.length + limit) orders.length = orders.length := by omega
      have e₃ : limit = 0 := by omega
      simp [e₂, e₃]
  · have e₁ : min offset orders.length = offset := by omega
    simp only [h₁, if_false, e₁]
    by_cases h₂ : (offset : Int) + limit > orders.length
    · have e₂ : min (offset + limit) orders.length = orders.length := by omega
      have h₃ : (offset : Int) ≤ orders.length := by omega
      simp [h₂, e₂, h₃]
    · have e₂ : min (offset + limit) orders.length = offset + limit := by omega
      simp only [h₂, if_false, e₂]
      have h₃ : (0 : Int) ≤ offset ∧ (offset : Int) ≤ offset + limit := by omega
      simp only [h₃, and_self, if_true]
      have e₃ : ((offset : Int) + limit).toNat - (offset : Int).toNat = offset + limit - offset := by
        omega
      rw [e₃, Int.toNat_ofNat]

/-- The same lemma for integer request fields that are not negative. -/
theorem ListOrdersByUser_of_nonneg (s : orderServer F) (userId : String) (limit offset : Int)
    (h₀ : 0 ≤ offset) (h₁ : 0 ≤ limit) :
    ListOrdersByUser s ⟨userId, limit, offset⟩ =
      .ret (some
        { Orders := ((ordersOf s userId).drop (min offset.toNat (ordersOf s userId).length)).take
            (min (min offset.toNat (ordersOf s userId).length + limit.toNat)
                (ordersOf s userId).length
              - min offset.toNat (ordersOf s userId).length)
          Total := int32 (ordersOf s userId).length }) none := by
  have h := ListOrdersByUser_of_nat s userId limit.toNat offset.toNat
  rwa [Int.toNat_of_nonneg h₀, Int.toNat_of_nonneg h₁] at h

/-- C5, counterexample. On the seeded server `CreateOrder` for `user-001` with an empty item
list returns the new order `order-008`, and `GetOrder` of that identifier right afterwards
returns no order but the order-no-items violation. -/
theorem GetOrder_after_CreateOrder_empty_items :
    (CreateOrder (NewOrderServer (fun _ => "t") : orderServer ℚ) ⟨"user-001", []⟩ "t" "t").2 =
      .ret (some ⟨⟨"order-008", "user-001", [], 0, OrderStatus.ORDER_STATUS_PENDING,
        "t", "t"⟩⟩) none ∧
    GetOrder (fun _ => none)
        (CreateOrder (NewOrderServer (fun _ => "t") : orderServer ℚ) ⟨"user-001", []⟩
          "t" "t").1 ⟨"order-008"⟩ =
      .ret none (some ⟨Code.FailedPrecondition, "",
        [Detail.PreconditionFailure [⟨"ORDER_FAILURE_CODE_ORDER_NO_ITEMS",
          "OrderService/GetOrder", "This order has no items."⟩]]⟩) ∧
    GetOrder (fun _ => none)
        (CreateOrder (NewOrderServer (fun _ => "t") : orderServer ℚ) ⟨"user-001", []⟩
          "t" "t").1 ⟨"order-008"⟩ ≠
      .ret (some ⟨⟨"order-008", "user-001", [], 0, OrderStatus.ORDER_STATUS_PENDING,
        "t", "t"⟩⟩) none := by
  have h : GetOrder (fun _ => none)
        (CreateOrder (NewOrderServer (fun _ => "t") : orderServer ℚ) ⟨"user-001", []⟩
          "t" "t").1 ⟨"order-008"⟩ =
      .ret none (some ⟨Code.FailedPrecondition, "",
        [Detail.PreconditionFailure [⟨"ORDER_FAILURE_CODE_ORDER_NO_ITEMS",
          "OrderService/GetOrder", "This order has no items."⟩]]⟩) := by
    rfl
  refine ⟨rfl, h, ?_⟩
  rw [h]
  simp

/-- C5, amended. `CreateOrder` returns a new order `o`, and right afterwards: `GetOrder` of
`o.Id` returns `o` and no error when the maintenance flag is unset and the request has at
least one item; it returns the unavailability error under maintenance, and the
order-no-items violation when the flag is unset and the request has no item; and
`ListOrdersByUser` for the owner, with offset 0 and a limit of at least the number of the
owner's orders, returns no error and all of the owner's orders, `o` being the last. -/
theorem CreateOrder_then_retrievable [GoFloat64 F] (marshal : Marshal) (s : orderServer F)
    (req : CreateOrderRequest F) (createdAt updatedAt : String) :
    (∃ o, (CreateOrder s req createdAt updatedAt).2 = .ret (some ⟨o⟩) none) ∧
    ∀ o, (CreateOrder s req createdAt updatedAt).2 = .ret (some ⟨o⟩) none →
      (s.maintenanceMode = false → req.Items ≠ [] →
        GetOrder marshal (CreateOrder s req createdAt updatedAt).1 ⟨o.Id⟩ =
          .ret (some ⟨o⟩) none) ∧
      (s.maintenanceMode = true →
        GetOrder marshal (CreateOrder s req createdAt updatedAt).1 ⟨o.Id⟩ =
          .ret none (UnavailableError marshal "order service is under maintenance"
            OrderErrorReason.ORDER_ERROR_REASON_MAINTENANCE)) ∧
      (s.maintenanceMode = false → req.Items = [] →
        GetOrder marshal (CreateOrder s req createdAt updatedAt).1 ⟨o.Id⟩ =
          .ret none (FailedPreconditionError marshal
            OrderFailureCode.ORDER_FAILURE_CODE_ORDER_NO_ITEMS
            "OrderService/GetOrder" "This order has no items.")) ∧
      (∀ limit : Int,
        ((ordersOf (CreateOrder s req createdAt updatedAt).1 o.UserId).length : Int) ≤ limit →
        ListOrdersByUser (CreateOrder s req createdAt updatedAt).1 ⟨o.UserId, limit, 0⟩ =
          .ret (some ⟨ordersOf s req.UserId ++ [o],
            int32 ((ordersOf s req.UserId ++ [o]).length)⟩) none) := by
  refine ⟨⟨_, rfl⟩, ?_⟩
  intro o ho
  simp only [CreateOrder, GoResult.ret.injEq, Option.some.injEq, CreateOrderResponse.mk.injEq,
    and_true] at ho
  subst ho
  refine ⟨?_, ?_, ?_, ?_⟩
  · intro hm hi
    simp [GetOrder, CreateOrder, hm, GoMap.lookup_store_self, hi]
  · intro hm
    simp [GetOrder, CreateOrder, hm]
  · intro hm hi
    simp [GetOrder, CreateOrder, hm, GoMap.lookup_store_self, hi]
  · intro limit hl
    have hidx : ordersOf (CreateOrder s req createdAt updatedAt).1 req.UserId =
        ordersOf s req.UserId ++ [(⟨"order-" ++ sprintf03d s.orderCounter, req.UserId, req.Items,
          req.Items.foldl (fun totalAmount item =>
            totalAmount + item.Price * GoFloat64.ofInt32 item.Quantity) 0,
          OrderStatus.ORDER_STATUS_PENDING, createdAt, updatedAt⟩ : Order F)] := by
      simp only [ordersOf, CreateOrder]
      exact GoMap.index_store_self _ _ _ _
    have hl' : ((ordersOf (CreateOrder s req createdAt updatedAt).1 req.UserId).length : Int)
        ≤ limit := hl
    rw [ListOrdersByUser_of_nonneg _ _ _ _ (le_refl 0) (le_trans (by omega) hl')]
    have hlen : (ordersOf (CreateOrder s req createdAt updatedAt).1 req.UserId).length
        ≤ limit.toNat := by omega
    rw [← hidx]
    simp only [Int.toNat_zero, Nat.zero_min, Nat.zero_add, Nat.sub_zero, List.drop_zero,
      Nat.min_eq_right hlen, List.take_length]

/-- C5, amended, on the seeded server: an order with one item is created for `user-003`, and
both retrievals return it. -/
theorem CreateOrder_then_retrievable_witness :
    GetOrder (fun _ => none)
        (CreateOrder (NewOrderServer (fun _ => "t") : orderServer ℚ)
          ⟨"user-003", [⟨"prod-002", 2, 29.99⟩]⟩ "t" "t").1 ⟨"order-008"⟩ =
      .ret (some ⟨⟨"order-008", "user-003", [⟨"prod-002", 2, 29.99⟩], 0 + 29.99 * 2,
        OrderStatus.ORDER_STATUS_PENDING, "t", "t"⟩⟩) none :=
  ((CreateOrder_then_retrievable (fun _ => none) (NewOrderServer (fun _ => "t") : orderServer ℚ)
    ⟨"user-003", [⟨"prod-002", 2, 29.99⟩]⟩ "t" "t").2
    ⟨"order-008", "user-003", [⟨"prod-002", 2, 29.99⟩], 0 + 29.99 * 2,
      OrderStatus.ORDER_STATUS_PENDING, "t", "t"⟩ rfl).1 rfl (by simp)

end orderServer

section Strings

/-- Slicing at the byte length of a leading part yields the rest. -/
theorem sliceFromAux_append (p t : List Char) :
    sliceFromAux (p ++ t) (String.utf8Len p) = some t := by
  induction p with
  | nil => cases t <;> simp [sliceFromAux]
  | cons c p ih =>
    have hpos := c.utf8Size_pos
    obtain ⟨n, hn⟩ : ∃ n, String.utf8Len p + c.utf8Size = n + 1 :=
      ⟨String.utf8Len p + c.utf8Size - 1, by omega⟩
    have hle : c.utf8Size ≤ n + 1 := by omega
    have hsub : n + 1 - c.utf8Size = String.utf8Len p := by omega
    simp only [List.cons_append, String.utf8Len_cons, hn, sliceFromAux, hle, if_true, hsub, ih]

/-- A slice that exists is the rest after a leading part of that byte length. -/
theorem sliceFromAux_eq_some {cs : List Char} {i : Nat} {t : List Char}
    (h : sliceFromAux cs i = some t) : ∃ p, cs = p ++ t ∧ String.utf8Len p = i := by
  induction cs generalizing i with
  | nil =>
    cases i with
    | zero =>
      simp only [sliceFromAux, Option.some.injEq] at h
      exact ⟨[], by simp [h], rfl⟩
    | succ i => simp [sliceFromAux] at h
  | cons c cs ih =>
    cases i with
    | zero =>
      simp only [sliceFromAux, Option.some.injEq] at h
      exact ⟨[], by simp [h], rfl⟩
    | succ i =>
      simp only [sliceFromAux] at h
      split at h
      · rename_i hle
        obtain ⟨p, hp, hlen⟩ := ih h
        refine ⟨c :: p, by simp [hp], ?_⟩
        rw [String.utf8Len_cons, hlen]
        omega
      · simp at h

/-- The suffix test of `GetUser`, written with `len` and a byte slice, holds exactly for the
strings that consist of a non-empty part followed by the suffix. -/
theorem suffix_test_iff (email suffix : String) :
    ((email ≠ "" ∧ len email > len suffix) ∧
        sliceFrom email (len email - len suffix) = some suffix) ↔
      ∃ p : String, p ≠ "" ∧ email = p ++ suffix := by
  constructor
  · rintro ⟨⟨-, hlen⟩, hs⟩
    simp only [sliceFrom, Option.map_eq_some'] at hs
    obtain ⟨t, ht, hts⟩ := hs
    obtain ⟨p, hp, hpl⟩ := sliceFromAux_eq_some ht
    refine ⟨⟨p⟩, ?_, ?_⟩
    · intro hpe
      have hp0 : p = [] := by simpa using congrArg String.data hpe
      subst hp0
      simp only [String.utf8Len_nil] at hpl
      simp only [len] at hlen hpl
      omega
    · apply String.ext
      rw [hp, ← hts]
      simp [String.data_append]
  · rintro ⟨p, hp, rfl⟩
    have hpd : p.data ≠ [] := fun h => hp (String.ext (by simpa using h))
    have hpl : 0 < String.utf8Len p.data := by
      rcases Nat.eq_zero_or_pos (String.utf8Len p.data) with h0 | h0
      · exact absurd (String.utf8Len_eq_zero.mp h0) hpd
      · exact h0
    have hlen : len (p ++ suffix) = String.utf8Len p.data + len suffix := by
      have hd : (p ++ suffix).data = p.data ++ suffix.data := String.data_append p suffix
      unfold len
      rw [show (p ++ suffix).utf8ByteSize = String.utf8Len (p ++ suffix).data from rfl, hd,
        String.utf8Len_append]
      rfl
    refine ⟨⟨?_, ?_⟩, ?_⟩
    · intro h
      have := congrArg String.data h
      simp only [String.data_append] at this
      exact hpd (List.append_eq_nil.mp this).1
    · omega
    · have hsub : len (p ++ suffix) - len suffix = String.utf8Len p.data := by omega
      rw [hsub]
      simp only [sliceFrom, String.data_append, sliceFromAux_append, Option.map_some']

end Strings

namespace userServer

open errorutil pb

/-- For a stored record and no maintenance, `GetUser` is decided by the suffix test alone. -/
theorem GetUser_of_stored (marshal : Marshal) (s : userServer) (req : GetUserRequest)
    (user : User) (hm : s.maintenanceMode = false) (hl : s.users.lookup req.UserId = some user) :
    ((∃ p : String, p ≠ "" ∧ user.Email = p ++ "@suspended.example.com") →
      GetUser marshal s req =
        .ret none (FailedPreconditionError marshal
          UserFailureCode.USER_FAILURE_CODE_USER_ACCOUNT_SUSPENDED
          "UserService/GetUser" "This account has been suspended.")) ∧
    ((¬ ∃ p : String, p ≠ "" ∧ user.Email = p ++ "@suspended.example.com") →
      GetUser marshal s req = .ret (some { User := user }) none) := by
  have key := suffix_test_iff user.Email "@suspended.example.com"
  simp only [GetUser, hm, hl]
  constructor
  · intro h
    obtain ⟨h₁, h₂⟩ := key.mpr h
    rw [if_pos h₁, if_pos h₂]
    simp
  · intro h
    by_cases h₁ : user.Email ≠ "" ∧ len user.Email > len "@suspended.example.com"
    · have h₂ : ¬ sliceFrom user.Email (len user.Email - len "@suspended.example.com")
          = some "@suspended.example.com" := fun h₂ => h (key.mp ⟨h₁, h₂⟩)
      rw [if_pos h₁, if_neg h₂]
      simp
    · rw [if_neg h₁]
      simp

/-- C6, counterexample. A stored user whose email address is exactly
`@suspended.example.com` has an address that ends with the suffix, and `GetUser` returns the
record, not the account-suspended violation. -/
theorem GetUser_email_equal_to_suffix :
    (∃ p : String, "@suspended.example.com" = p ++ "@suspended.example.com") ∧
    GetUser (fun _ => none)
        ⟨[("user-100", ⟨"user-100", "Nobody", "@suspended.example.com", 30, "t"⟩)], false⟩
        ⟨"user-100"⟩ =
      .ret (some ⟨⟨"user-100", "Nobody", "@suspended.example.com", 30, "t"⟩⟩) none ∧
    GetUser (fun _ => none)
        ⟨[("user-100", ⟨"user-100", "Nobody", "@suspended.example.com", 30, "t"⟩)], false⟩
        ⟨"user-100"⟩ ≠
      .ret none (FailedPreconditionError (fun _ => none)
        UserFailureCode.USER_FAILURE_CODE_USER_ACCOUNT_SUSPENDED
        "UserService/GetUser" "This account has been suspended.") := by
  have h : GetUser (fun _ => none)
        ⟨[("user-100", ⟨"user-100", "Nobody", "@suspended.example.com", 30, "t"⟩)], false⟩
        ⟨"user-100"⟩ =
      .ret (some ⟨⟨"user-100", "Nobody", "@suspended.example.com", 30, "t"⟩⟩) none := by
    rfl
  refine ⟨⟨"", by decide⟩, h, ?_⟩
  rw [h]
  simp

/-- C6, amended. With the maintenance flag unset and a record stored under the identifier,
`GetUser` returns the error `FailedPreconditionError` builds for the account-suspended code
if and only if the record's email address is a non-empty part followed by
`@suspended.example.com`, that is, ends with the suffix and is longer than it; in every other
case it returns the stored record and no error. With the detail attached that error is the
FAILED_PRECONDITION status with the single account-suspended violation. -/
theorem GetUser_suspended_iff (marshal : Marshal) (s : userServer) (req : GetUserRequest)
    (user : User) (hm : s.maintenanceMode = false) (hl : s.users.lookup req.UserId = some user) :
    (GetUser marshal s req =
        .ret none (FailedPreconditionError marshal
          UserFailureCode.USER_FAILURE_CODE_USER_ACCOUNT_SUSPENDED
          "UserService/GetUser" "This account has been suspended.") ↔
      ∃ p : String, p ≠ "" ∧ user.Email = p ++ "@suspended.example.com") ∧
    (GetUser marshal s req = .ret (some { User := user }) none ↔
      ¬ ∃ p : String, p ≠ "" ∧ user.Email = p ++ "@suspended.example.com") ∧
    ((∀ d, marshal d = none) →
      FailedPreconditionError marshal UserFailureCode.USER_FAILURE_CODE_USER_ACCOUNT_SUSPENDED
          "UserService/GetUser" "This account has been suspended." =
        some ⟨Code.FailedPrecondition, "",
          [Detail.PreconditionFailure [⟨"USER_FAILURE_CODE_USER_ACCOUNT_SUSPENDED",
            "UserService/GetUser", "This account has been suspended."⟩]]⟩) := by
  obtain ⟨hyes, hno⟩ := GetUser_of_stored marshal s req user hm hl
  refine ⟨?_, ?_, fun ha => by
    simp [FailedPreconditionError_eq, ha, FailureCodeStringer.String]⟩
  · by_cases h : ∃ p : String, p ≠ "" ∧ user.Email = p ++ "@suspended.example.com"
    · rw [hyes h]
      exact ⟨fun _ => h, fun _ => rfl⟩
    · rw [hno h]
      refine ⟨fun e => ?_, fun e => absurd e h⟩
      rw [FailedPreconditionError_eq] at e
      simp at e
  · by_cases h : ∃ p : String, p ≠ "" ∧ user.Email = p ++ "@suspended.example.com"
    · rw [hyes h]
      refine ⟨fun e => ?_, fun e => absurd h e⟩
      rw [FailedPreconditionError_eq] at e
      simp at e
    · rw [hno h]
      exact ⟨fun _ => h, fun _ => rfl⟩

/-- C6, amended, on the seed data: `user-999` has the address
`suspended@suspended.example.com` and `GetUser` returns the account-suspended violation. -/
theorem GetUser_suspended_iff_witness :
    GetUser (fun _ => none) (NewUserServer (fun _ => "t")) ⟨"user-999"⟩ =
      .ret none (FailedPreconditionError (fun _ => none)
        UserFailureCode.USER_FAILURE_CODE_USER_ACCOUNT_SUSPENDED
        "UserService/GetUser" "This account has been suspended.") :=
  (GetUser_suspended_iff (fun _ => none) (NewUserServer (fun _ => "t")) ⟨"user-999"⟩
    ⟨"user-999", "Suspended User", "suspended@suspended.example.com", 30, "t"⟩ rfl rfl).1.mpr
    ⟨"suspended", by decide, by decide⟩

end userServer

namespace productServer

variable {F : Type}

open errorutil pb

/-- C7. With the maintenance flag unset `GetProduct` returns the error
`FailedPreconditionError` builds for the product-not-found code when no product is stored
under the identifier; otherwise, for a stored product with stock 0, the one for the
product-out-of-stock code, whose description is `Product is out of stock: ` followed by the
identifier; otherwise the stored product and no error. The stock is examined only for a
stored product: for an unknown identifier the result is the not-found error, which is a real
error and differs from the out-of-stock one. With the details attached the two errors are
the FAILED_PRECONDITION statuses with the single violation of the respective code. -/
theorem GetProduct_decision_order (marshal : Marshal) (s : productServer F)
    (req : GetProductRequest) (hm : s.maintenanceMode = false) :
    (s.products.lookup req.ProductId = none →
      GetProduct marshal s req = .ret none
        (FailedPreconditionError marshal
          ProductFailureCode.PRODUCT_FAILURE_CODE_PRODUCT_NOT_FOUND
          "ProductService/GetProduct" ("Product not found: " ++ req.ProductId))) ∧
    (∀ product, s.products.lookup req.ProductId = some product → product.Stock = 0 →
      GetProduct marshal s req = .ret none
        (FailedPreconditionError marshal
          ProductFailureCode.PRODUCT_FAILURE_CODE_PRODUCT_OUT_OF_STOCK
          "ProductService/GetProduct" ("Product is out of stock: " ++ req.ProductId))) ∧
    (∀ product, s.products.lookup req.ProductId = some product → product.Stock ≠ 0 →
      GetProduct marshal s req = .ret (some { Product := product }) none) ∧
    req.ProductId.data <:+ ("Product is out of stock: " ++ req.ProductId).data ∧
    (FailedPreconditionError marshal ProductFailureCode.PRODUCT_FAILURE_CODE_PRODUCT_NOT_FOUND
        "ProductService/GetProduct" ("Product not found: " ++ req.ProductId)).isSome = true ∧
    (FailedPreconditionError marshal ProductFailureCode.PRODUCT_FAILURE_CODE_PRODUCT_OUT_OF_STOCK
        "ProductService/GetProduct" ("Product is out of stock: " ++ req.ProductId)).isSome
      = true ∧
    FailedPreconditionError marshal ProductFailureCode.PRODUCT_FAILURE_CODE_PRODUCT_NOT_FOUND
        "ProductService/GetProduct" ("Product not found: " ++ req.ProductId) ≠
      FailedPreconditionError marshal ProductFailureCode.PRODUCT_FAILURE_CODE_PRODUCT_OUT_OF_STOCK
        "ProductService/GetProduct" ("Product is out of stock: " ++ req.ProductId) ∧
    ((∀ d, marshal d = none) →
      FailedPreconditionError marshal ProductFailureCode.PRODUCT_FAILURE_CODE_PRODUCT_NOT_FOUND
          "ProductService/GetProduct" ("Product not found: " ++ req.ProductId) =
        some ⟨Code.FailedPrecondition, "",
          [Detail.PreconditionFailure [⟨"PRODUCT_FAILURE_CODE_PRODUCT_NOT_FOUND",
            "ProductService/GetProduct", "Product not found: " ++ req.ProductId⟩]]⟩ ∧
      FailedPreconditionError marshal ProductFailureCode.PRODUCT_FAILURE_CODE_PRODUCT_OUT_OF_STOCK
          "ProductService/GetProduct" ("Product is out of stock: " ++ req.ProductId) =
        some ⟨Code.FailedPrecondition, "",
          [Detail.PreconditionFailure [⟨"PRODUCT_FAILURE_CODE_PRODUCT_OUT_OF_STOCK",
            "ProductService/GetProduct", "Product is out of stock: " ++ req.ProductId⟩]]⟩) := by
  refine ⟨?_, ?_, ?_, ?_, ?_, ?_, ?_, ?_⟩
  · intro hl
    simp [GetProduct, hm, hl]
  · intro product hl hs
    simp [GetProduct, hm, hl, hs]
  · intro product hl hs
    simp [GetProduct, hm, hl, hs]
  · rw [String.data_append]
    exact List.suffix_append _ _
  · simp [FailedPreconditionError_eq]
  · simp [FailedPreconditionError_eq]
  · rw [FailedPreconditionError_eq, FailedPreconditionError_eq]
    simp only [FailureCodeStringer.String, ne_eq, Option.some.injEq]
    have hd : ("Product not found: " ++ req.ProductId) ≠
        ("Product is out of stock: " ++ req.ProductId) := by
      intro h
      have h' := congrArg (fun t => t.data.get? 8) h
      simp [String.data_append, List.get?] at h'
    split <;> split <;> simp [hd]
  · intro ha
    simp [FailedPreconditionError_eq, ha, FailureCodeStringer.String]

/-- C7 on the seed data: `prod-999` is stored with stock 0 and `GetProduct` returns the
out-of-stock violation. -/
theorem GetProduct_decision_order_witness :
    GetProduct (fun _ => none) (NewProductServer (fun _ => "t") : productServer ℚ)
        ⟨"prod-999"⟩ =
      .ret none
        (FailedPreconditionError (fun _ => none)
          ProductFailureCode.PRODUCT_FAILURE_CODE_PRODUCT_OUT_OF_STOCK
          "ProductService/GetProduct" ("Product is out of stock: " ++ "prod-999")) :=
  (GetProduct_decision_order (fun _ => none)
    (NewProductServer (fun _ => "t") : productServer ℚ) ⟨"prod-999"⟩ rfl).2.1
    ⟨"prod-999", "Out of Stock Item", "This product is out of stock", 99.99, "Test", 0, "t"⟩
    rfl rfl

end productServer

section NotFound

open errorutil pb

/-- C8. With the maintenance flag unset and an identifier that is not a key of the service's
map, each of `GetUser`, `GetProduct` and `GetOrder` returns no response record and a
FAILED_PRECONDITION error; once the status library has attached the detail (it refuses only
a message that it cannot marshal) that error carries exactly one detail with exactly one
violation, whose type is the service's not-found code and whose subject is
`UserService/GetUser`, `ProductService/GetProduct` or `OrderService/GetOrder`. -/
theorem Get_unknown_identifier (F : Type) (marshal : Marshal) :
    (∀ (s : userServer) (req : GetUserRequest),
      s.maintenanceMode = false → s.users.lookup req.UserId = none →
      (∃ e, userServer.GetUser marshal s req = .ret none (some e) ∧
        e.code = Code.FailedPrecondition) ∧
      (marshal (Detail.PreconditionFailure [⟨"USER_FAILURE_CODE_USER_NOT_FOUND",
          "UserService/GetUser", "User not found: " ++ req.UserId⟩]) = none →
        userServer.GetUser marshal s req = .ret none (some ⟨Code.FailedPrecondition, "",
          [Detail.PreconditionFailure [⟨"USER_FAILURE_CODE_USER_NOT_FOUND",
            "UserService/GetUser", "User not found: " ++ req.UserId⟩]]⟩))) ∧
    (∀ (s : productServer F) (req : GetProductRequest),
      s.maintenanceMode = false → s.products.lookup req.ProductId = none →
      (∃ e, productServer.GetProduct marshal s req = .ret none (some e) ∧
        e.code = Code.FailedPrecondition) ∧
      (marshal (Detail.PreconditionFailure [⟨"PRODUCT_FAILURE_CODE_PRODUCT_NOT_FOUND",
          "ProductService/GetProduct", "Product not found: " ++ req.ProductId⟩]) = none →
        productServer.GetProduct marshal s req = .ret none (some ⟨Code.FailedPrecondition, "",
          [Detail.PreconditionFailure [⟨"PRODUCT_FAILURE_CODE_PRODUCT_NOT_FOUND",
            "ProductService/GetProduct", "Product not found: " ++ req.ProductId⟩]]⟩))) ∧
    (∀ (s : orderServer F) (req : GetOrderRequest),
      s.maintenanceMode = false → s.orders.lookup req.OrderId = none →
      (∃ e, orderServer.GetOrder marshal s req = .ret none (some e) ∧
        e.code = Code.FailedPrecondition) ∧
      (marshal (Detail.PreconditionFailure [⟨"ORDER_FAILURE_CODE_ORDER_NOT_FOUND",
          "OrderService/GetOrder", "Order not found: " ++ req.OrderId⟩]) = none →
        orderServer.GetOrder marshal s req = .ret none (some ⟨Code.FailedPrecondition, "",
          [Detail.PreconditionFailure [⟨"ORDER_FAILURE_CODE_ORDER_NOT_FOUND",
            "OrderService/GetOrder", "Order not found: " ++ req.OrderId⟩]]⟩))) := by
  refine ⟨?_, ?_, ?_⟩
  · intro s req hm hl
    have h : userServer.GetUser marshal s req = .ret none
        (FailedPreconditionError marshal UserFailureCode.USER_FAILURE_CODE_USER_NOT_FOUND
          "UserService/GetUser" ("User not found: " ++ req.UserId)) := by
      simp [userServer.GetUser, hm, hl]
    rw [h, FailedPreconditionError_eq]
    refine ⟨⟨_, rfl, ?_⟩, ?_⟩
    · split <;> rfl
    · intro ha
      simp only [FailureCodeStringer.String] at ha ⊢
      rw [if_pos ha]
  · intro s req hm hl
    have h : productServer.GetProduct marshal s req = .ret none
        (FailedPreconditionError marshal
          ProductFailureCode.PRODUCT_FAILURE_CODE_PRODUCT_NOT_FOUND
          "ProductService/GetProduct" ("Product not found: " ++ req.ProductId)) := by
      simp [productServer.GetProduct, hm, hl]
    rw [h, FailedPreconditionError_eq]
    refine ⟨⟨_, rfl, ?_⟩, ?_⟩
    · split <;> rfl
    · intro ha
      simp only [FailureCodeStringer.String] at ha ⊢
      rw [if_pos ha]
  · intro s req hm hl
    have h : orderServer.GetOrder marshal s req = .ret none
        (FailedPreconditionError marshal OrderFailureCode.ORDER_FAILURE_CODE_ORDER_NOT_FOUND
          "OrderService/GetOrder" ("Order not found: " ++ req.OrderId)) := by
      simp [orderServer.GetOrder, hm, hl]
    rw [h, FailedPreconditionError_eq]
    refine ⟨⟨_, rfl, ?_⟩, ?_⟩
    · split <;> rfl
    · intro ha
      simp only [FailureCodeStringer.String] at ha ⊢
      rw [if_pos ha]

/-- C8 on the seed data: `user-404`, `prod-404` and `order-404` are not stored, and each Get
returns no response and the FAILED_PRECONDITION error with the single not-found violation. -/
theorem Get_unknown_identifier_witness :
    userServer.GetUser (fun _ => none) (userServer.NewUserServer (fun _ => "t")) ⟨"user-404"⟩ =
      .ret none (some ⟨Code.FailedPrecondition, "",
        [Detail.PreconditionFailure [⟨"USER_FAILURE_CODE_USER_NOT_FOUND",
          "UserService/GetUser", "User not found: " ++ "user-404"⟩]]⟩) ∧
    productServer.GetProduct (fun _ => none)
        (productServer.NewProductServer (fun _ => "t") : productServer ℚ) ⟨"prod-404"⟩ =
      .ret none (some ⟨Code.FailedPrecondition, "",
        [Detail.PreconditionFailure [⟨"PRODUCT_FAILURE_CODE_PRODUCT_NOT_FOUND",
          "ProductService/GetProduct", "Product not found: " ++ "prod-404"⟩]]⟩) ∧
    orderServer.GetOrder (fun _ => none)
        (orderServer.NewOrderServer (fun _ => "t") : orderServer ℚ) ⟨"order-404"⟩ =
      .ret none (some ⟨Code.FailedPrecondition, "",
        [Detail.PreconditionFailure [⟨"ORDER_FAILURE_CODE_ORDER_NOT_FOUND",
          "OrderService/GetOrder", "Order not found: " ++ "order-404"⟩]]⟩) :=
  ⟨((Get_unknown_identifier ℚ (fun _ => none)).1
      (userServer.NewUserServer (fun _ => "t")) ⟨"user-404"⟩ rfl rfl).2 rfl,
    ((Get_unknown_identifier ℚ (fun _ => none)).2.1
      (productServer.NewProductServer (fun _ => "t")) ⟨"prod-404"⟩ rfl rfl).2 rfl,
    ((Get_unknown_identifier ℚ (fun _ => none)).2.2
      (orderServer.NewOrderServer (fun _ => "t")) ⟨"order-404"⟩ rfl rfl).2 rfl⟩

end NotFound

namespace orderServer

variable {F : Type}

open errorutil pb

/-- A value inside the 32-bit range is not changed by the conversion to `int32`. -/
theorem int32_of_lt {n : Nat} (h : (n : Int) < 2 ^ 31) : int32 n = n := by
  unfold int32
  omega

/-- A run whose calls are all for one user lengthens that user's index list by the number of
calls. -/
theorem runCreates_length_same_user [GoFloat64 F] (calls : List (CreateCall F))
    (s : orderServer F) (userId : String) (h : ∀ call ∈ calls, call.1.UserId = userId) :
    (ordersOf (runCreates s calls) userId).length = (ordersOf s userId).length + calls.length := by
  induction calls generalizing s with
  | nil => simp [runCreates]
  | cons call calls ih =>
    have h' : ∀ c ∈ calls, c.1.UserId = userId := fun c hc => h c (List.mem_cons_of_mem _ hc)
    have hu : call.1.UserId = userId := h call (List.mem_cons_self _ _)
    have := ih (CreateOrder s call.1 call.2.1 call.2.2).1 h'
    simp only [runCreates, List.foldl_cons] at this ⊢
    rw [this]
    have hstep : (ordersOf (CreateOrder s call.1 call.2.1 call.2.2).1 userId).length =
        (ordersOf s userId).length + 1 := by
      simp only [ordersOf, CreateOrder, ← hu, GoMap.index_store_self, List.length_append,
        List.length_singleton]
    rw [hstep, List.length_cons]
    omega

/-- The user `user-777` has no order in the seeded server. -/
theorem seed_ordersOf_user_777 :
    ordersOf (NewOrderServer (fun _ => "t") : orderServer ℚ) "user-777" = [] := by
  rfl

/-- After 2147483648 calls for `user-777` on the seeded server that user has 2147483648
orders. -/
theorem length_after_2_pow_31_calls :
    (ordersOf (runCreates (NewOrderServer (fun _ => "t") : orderServer ℚ)
        (List.replicate 2147483648 (⟨"user-777", []⟩, "t", "t"))) "user-777").length =
      2147483648 := by
  rw [runCreates_length_same_user _ _ "user-777"
    (fun call hc => by rw [List.eq_of_mem_replicate hc]), seed_ordersOf_user_777,
    List.length_replicate]
  rfl

/-- C9, counterexample. In the state reached from the seeded server by 2147483648
`CreateOrder` calls for `user-777`, that user's sequence has N = 2147483648 orders and
`ListOrdersByUser` with limit 0 and offset 0 reports the total -2147483648: the `int32`
conversion of the length wraps around. -/
theorem ListOrdersByUser_total_wraps :
    (ordersOf (runCreates (NewOrderServer (fun _ => "t") : orderServer ℚ)
        (List.replicate 2147483648 (⟨"user-777", []⟩, "t", "t"))) "user-777").length =
      2147483648 ∧
    ListOrdersByUser (runCreates (NewOrderServer (fun _ => "t") : orderServer ℚ)
        (List.replicate 2147483648 (⟨"user-777", []⟩, "t", "t"))) ⟨"user-777", 0, 0⟩ =
      .ret (some ⟨[], -2147483648⟩) none := by
  refine ⟨length_after_2_pow_31_calls, ?_⟩
  have h := ListOrdersByUser_of_nat (runCreates (NewOrderServer (fun _ => "t") : orderServer ℚ)
    (List.replicate 2147483648 (⟨"user-777", []⟩, "t", "t"))) "user-777" 0 0
  rw [length_after_2_pow_31_calls] at h
  simp only [Nat.cast_zero, Nat.zero_min, Nat.zero_add, Nat.sub_zero, List.take_zero] at h
  rw [h]
  have h32 : int32 ((2147483648 : Nat) : Int) = -2147483648 := by decide
  rw [h32]

/-- C9, amended. For a non-negative offset and limit `ListOrdersByUser` returns no error; with
`N` the length of the user's sequence in the index (0 when the user has none),
`start = min offset N` and `end = min (start + limit) N`, the page is the slice from `start`
to `end` of the sequence: it has `end - start` orders and its `i`-th order is the
`(start + i)`-th of the sequence. The total is `N` converted to `int32`, which is `N` when
`N < 2 ^ 31`. For a user with no orders the page is empty. -/
theorem ListOrdersByUser_page (s : orderServer F) (req : ListOrdersByUserRequest)
    (h₀ : 0 ≤ req.Offset) (h₁ : 0 ≤ req.Limit) :
    ListOrdersByUser s req =
      .ret (some
        { Orders :=
            ((ordersOf s req.UserId).drop (min req.Offset.toNat (ordersOf s req.UserId).length)).take
              (min (min req.Offset.toNat (ordersOf s req.UserId).length + req.Limit.toNat)
                  (ordersOf s req.UserId).length
                - min req.Offset.toNat (ordersOf s req.UserId).length)
          Total := int32 (ordersOf s req.UserId).length }) none ∧
    (((ordersOf s req.UserId).drop (min req.Offset.toNat (ordersOf s req.UserId).length)).take
        (min (min req.Offset.toNat (ordersOf s req.UserId).length + req.Limit.toNat)
            (ordersOf s req.UserId).length
          - min req.Offset.toNat (ordersOf s req.UserId).length)).length =
      min (min req.Offset.toNat (ordersOf s req.UserId).length + req.Limit.toNat)
          (ordersOf s req.UserId).length
        - min req.Offset.toNat (ordersOf s req.UserId).length ∧
    (∀ i, i < min (min req.Offset.toNat (ordersOf s req.UserId).length + req.Limit.toNat)
            (ordersOf s req.UserId).length
          - min req.Offset.toNat (ordersOf s req.UserId).length →
      (((ordersOf s req.UserId).drop (min req.Offset.toNat (ordersOf s req.UserId).length)).take
        (min (min req.Offset.toNat (ordersOf s req.UserId).length + req.Limit.toNat)
            (ordersOf s req.UserId).length
          - min req.Offset.toNat (ordersOf s req.UserId).length))[i]? =
        (ordersOf s req.UserId)[min req.Offset.toNat (ordersOf s req.UserId).length + i]?) ∧
    (((ordersOf s req.UserId).length : Int) < 2 ^ 31 →
      int32 (ordersOf s req.UserId).length = (ordersOf s req.UserId).length) ∧
    (ordersOf s req.UserId = [] →
      ListOrdersByUser s req = .ret (some ⟨[], 0⟩) none) := by
  have hmain := ListOrdersByUser_of_nonneg s req.UserId req.Limit req.Offset h₀ h₁
  refine ⟨hmain, ?_, ?_, ?_, ?_⟩
  · rw [List.length_take, List.length_drop]
    omega
  · intro i hi
    rw [List.getElem?_take, if_pos hi, List.getElem?_drop]
  · exact int32_of_lt
  · intro he
    rw [hmain, he]
    simp only [List.length_nil, Nat.min_zero, List.drop_nil, List.take_nil, Nat.cast_zero]
    rfl

/-- C9, amended, on the seeded server: the second page of size 2 of `user-001`, who has five
orders, holds the seed orders `order-999` and `order-998`, and the total is 5. -/
theorem ListOrdersByUser_page_witness :
    ListOrdersByUser (NewOrderServer (fun _ => "t") : orderServer ℚ) ⟨"user-001", 2, 2⟩ =
      .ret (some
        ⟨[⟨"order-999", "user-001", [], 0, OrderStatus.ORDER_STATUS_CANCELLED, "t", "t"⟩,
          ⟨"order-998", "user-001", [⟨"prod-notfound", 1, 99.99⟩], 99.99,
            OrderStatus.ORDER_STATUS_PENDING, "t", "t"⟩], 5⟩) none :=
  (ListOrdersByUser_page (NewOrderServer (fun _ => "t") : orderServer ℚ) ⟨"user-001", 2, 2⟩
    (by decide) (by decide)).1

/-- The page at a non-negative offset, as a slice of the user's sequence. -/
theorem pageAt_of_nat (s : orderServer F) (userId : String) (limit offset : Nat) :
    pageAt s userId limit offset =
      ((ordersOf s userId).drop (min offset (ordersOf s userId).length)).take
        (min (min offset (ordersOf s userId).length + limit) (ordersOf s userId).length
          - min offset (ordersOf s userId).length) := by
  simp only [pageAt, ListOrdersByUser_of_nat]

/-- The first `K` pages of size `L`, concatenated, are the first `min (K * L) N` orders. -/
theorem pages_flatten_eq_take (s : orderServer F) (userId : String) (L K : Nat) :
    ((List.range K).map (fun k => pageAt s userId L ((k * L : Nat) : Int))).flatten =
      (ordersOf s userId).take (min (K * L) (ordersOf s userId).length) := by
  induction K with
  | zero => simp
  | succ K ih =>
    rw [List.range_succ, List.map_append, List.flatten_append, ih, List.map_singleton,
      List.flatten_singleton, pageAt_of_nat]
    have e : min ((K + 1) * L) (ordersOf s userId).length =
        min (K * L) (ordersOf s userId).length +
          (min (min (K * L) (ordersOf s userId).length + L) (ordersOf s userId).length
            - min (K * L) (ordersOf s userId).length) := by
      rw [Nat.add_mul, Nat.one_mul]
      omega
    rw [e, List.take_add]

/-- C10, counterexample. In the state reached from the seeded server by 2147483648
`CreateOrder` calls for `user-777`, that user's sequence has N = 2147483648 orders, and the
first page of size 1 reports the total -2147483648, not N. -/
theorem first_page_total_wraps :
    (ordersOf (runCreates (NewOrderServer (fun _ => "t") : orderServer ℚ)
        (List.replicate 2147483648 (⟨"user-777", []⟩, "t", "t"))) "user-777").length =
      2147483648 ∧
    ∃ page, ListOrdersByUser (runCreates (NewOrderServer (fun _ => "t") : orderServer ℚ)
        (List.replicate 2147483648 (⟨"user-777", []⟩, "t", "t"))) ⟨"user-777", 1, 0⟩ =
      .ret (some ⟨page, -2147483648⟩) none := by
  refine ⟨length_after_2_pow_31_calls, ?_⟩
  have h := ListOrdersByUser_of_nat (runCreates (NewOrderServer (fun _ => "t") : orderServer ℚ)
    (List.replicate 2147483648 (⟨"user-777", []⟩, "t", "t"))) "user-777" 1 0
  rw [length_after_2_pow_31_calls] at h
  have h32 : int32 ((2147483648 : Nat) : Int) = -2147483648 := by decide
  rw [h32] at h
  exact ⟨_, h⟩

/-- C10, amended. For a fixed state, a user with `N` orders and a page size `L ≥ 1`, every
call `ListOrdersByUser(user, L, k * L)` returns no error, its page, and the total `N`
converted to `int32`, which is `N` when `N < 2 ^ 31`; every page at an offset of `N` or more
is empty; and for every number `K` of pages with `K * L ≥ N` (so for the pages at the offsets
0, L, 2L, ... up to the first offset that reaches `N`, with or without that last one) the
concatenation of the pages at the offsets `0, L, ..., (K - 1) * L` is exactly the user's
sequence in its stored order. -/
theorem pages_exhaustive (s : orderServer F) (userId : String) (L : Nat) (hL : 1 ≤ L) :
    (∀ k : Nat, ListOrdersByUser s ⟨userId, (L : Int), ((k * L : Nat) : Int)⟩ =
      .ret (some ⟨pageAt s userId L ((k * L : Nat) : Int),
        int32 (ordersOf s userId).length⟩) none) ∧
    (((ordersOf s userId).length : Int) < 2 ^ 31 →
      int32 (ordersOf s userId).length = (ordersOf s userId).length) ∧
    (∀ k : Nat, (ordersOf s userId).length ≤ k * L →
      pageAt s userId L ((k * L : Nat) : Int) = []) ∧
    (∀ K : Nat, (ordersOf s userId).length ≤ K * L →
      ((List.range K).map (fun k => pageAt s userId L ((k * L : Nat) : Int))).flatten =
        ordersOf s userId) ∧
    ((ordersOf s userId).length ≤ (((ordersOf s userId).length + L - 1) / L) * L ∧
      ∀ k : Nat, k < ((ordersOf s userId).length + L - 1) / L →
        k * L < (ordersOf s userId).length) := by
  refine ⟨?_, ?_, ?_, ?_, ?_⟩
  · intro k
    rw [pageAt_of_nat, ListOrdersByUser_of_nat]
  · exact int32_of_lt
  · intro k hk
    rw [pageAt_of_nat]
    have e : min (k * L) (ordersOf s userId).length = (ordersOf s userId).length := by omega
    rw [e, List.drop_length]
    simp
  · intro K hK
    rw [pages_flatten_eq_take, Nat.min_eq_right hK, List.take_length]
  · have hq₁ : ((ordersOf s userId).length + L - 1) / L * L ≤ (ordersOf s userId).length + L - 1 :=
      Nat.div_mul_le_self _ _
    have hq₂ : (ordersOf s userId).length + L - 1 <
        ((ordersOf s userId).length + L - 1) / L * L + L := by
      have := Nat.lt_div_mul_add (a := (ordersOf s userId).length + L - 1) (b := L) (by omega)
      omega
    refine ⟨by omega, ?_⟩
    intro k hk
    have hk' : (k + 1) * L ≤ ((ordersOf s userId).length + L - 1) / L * L :=
      Nat.mul_le_mul_right L hk
    rw [Nat.add_mul, Nat.one_mul] at hk'
    omega

/-- C10, amended, on the seeded server: `user-001` has five orders, and the three pages of
size 2 at the offsets 0, 2 and 4 concatenate to the user's sequence. -/
theorem pages_exhaustive_witness :
    ((List.range 3).map
        (fun k => pageAt (NewOrderServer (fun _ => "t") : orderServer ℚ) "user-001" (2 : Nat)
          ((k * 2 : Nat) : Int))).flatten =
      ordersOf (NewOrderServer (fun _ => "t") : orderServer ℚ) "user-001" :=
  (pages_exhaustive (NewOrderServer (fun _ => "t") : orderServer ℚ) "user-001" 2
    (by decide)).2.2.2.1 3 (by decide)

/-! ### What holds while the assigned identifier is fresh -/

/-- A key reads as missing exactly when it is not among the keys. -/
theorem lookup_eq_none_iff {V : Type} (m : GoMap V) (k : String) :
    m.lookup k = none ↔ k ∉ m.map Prod.fst := by
  induction m with
  | nil => simp [GoMap.lookup]
  | cons e m ih =>
    obtain ⟨k', v⟩ := e
    by_cases h : k' = k
    · simp [GoMap.lookup, h]
    · have h' : ¬ k = k' := fun e => h e.symm
      simp [GoMap.lookup, h, h', ih]

/-- Storing an order under an identifier that is not yet a key, and appending it to its
user's index list, keeps the primary map and the index consistent. -/
theorem Consistent_store (s : orderServer F) (o : Order F) (counter : Int)
    (h : Consistent s) (hfresh : s.orders.lookup o.Id = none) :
    Consistent
      ({ s with
          orderCounter := counter
          orders := s.orders.store o.Id o
          userOrders := s.userOrders.store o.UserId (s.userOrders.index [] o.UserId ++ [o]) } :
        orderServer F) := by
  obtain ⟨h₁, h₂⟩ := h
  have hold : ∀ userId x, x ∈ ordersOf s userId → x.Id ≠ o.Id := by
    intro userId x hx e
    have := (h₁ userId x hx).2
    rw [e, hfresh] at this
    exact absurd this (by simp)
  constructor
  · intro userId x hx
    simp only [ordersOf] at hx
    by_cases hu : userId = o.UserId
    · subst hu
      rw [GoMap.index_store_self, List.mem_append, List.mem_singleton] at hx
      rcases hx with hx | hx
      · refine ⟨(h₁ _ x hx).1, ?_⟩
        show (s.orders.store o.Id o).lookup x.Id = some x
        rw [GoMap.lookup_store_ne _ _ (hold _ x hx)]
        exact (h₁ _ x hx).2
      · subst hx
        exact ⟨rfl, GoMap.lookup_store_self _ _ _⟩
    · rw [GoMap.index_store_ne _ _ _ hu] at hx
      refine ⟨(h₁ _ x hx).1, ?_⟩
      show (s.orders.store o.Id o).lookup x.Id = some x
      rw [GoMap.lookup_store_ne _ _ (hold _ x hx)]
      exact (h₁ _ x hx).2
  · intro orderId x hx
    simp only [ordersOf]
    have hx' : (s.orders.store o.Id o).lookup orderId = some x := hx
    by_cases hid : orderId = o.Id
    · subst hid
      rw [GoMap.lookup_store_self, Option.some.injEq] at hx'
      subst hx'
      rw [GoMap.index_store_self]
      simp
    · rw [GoMap.lookup_store_ne _ _ hid] at hx'
      have hmem := h₂ orderId x hx'
      by_cases hu : x.UserId = o.UserId
      · rw [hu, GoMap.index_store_self, List.mem_append]
        left
        rw [← hu]
        exact hmem
      · rw [GoMap.index_store_ne _ _ _ hu]
        exact hmem

/-- A `CreateOrder` call whose identifier is not yet a key keeps the state consistent. -/
theorem Consistent_CreateOrder [GoFloat64 F] (s : orderServer F) (req : CreateOrderRequest F)
    (createdAt updatedAt : String) (h : Consistent s)
    (hfresh : s.orders.lookup ("order-" ++ sprintf03d s.orderCounter) = none) :
    Consistent (CreateOrder s req createdAt updatedAt).1 :=
  Consistent_store s
    { Id := "order-" ++ sprintf03d s.orderCounter
      UserId := req.UserId
      Items := req.Items
      TotalAmount := req.Items.foldl
        (fun totalAmount item => totalAmount + item.Price * GoFloat64.ofInt32 item.Quantity) 0
      Status := OrderStatus.ORDER_STATUS_PENDING
      CreatedAt := createdAt
      UpdatedAt := updatedAt }
    (wrapInt (s.orderCounter + 1)) h hfresh

/-- The loop of `seedOrders` keeps the state consistent when the identifiers of the seed
orders are pairwise different and not yet keys. -/
theorem Consistent_seed_loop (l : List (Order F)) (s : orderServer F) (h : Consistent s)
    (hnew : ∀ o ∈ l, s.orders.lookup o.Id = none) (hnd : (l.map Order.Id).Nodup) :
    Consistent (l.foldl
      (fun s order =>
        { s with
          orders := s.orders.store order.Id order
          userOrders := s.userOrders.store order.UserId
            (s.userOrders.index [] order.UserId ++ [order]) })
      s) := by
  induction l generalizing s with
  | nil => exact h
  | cons o l ih =>
    rw [List.map_cons, List.nodup_cons] at hnd
    rw [List.foldl_cons]
    apply ih
    · exact Consistent_store s o s.orderCounter h (hnew o (List.mem_cons_self _ _))
    · intro x hx
      have hne : x.Id ≠ o.Id := fun e => hnd.1 (e ▸ List.mem_map_of_mem Order.Id hx)
      show (s.orders.store o.Id o).lookup x.Id = none
      rw [GoMap.lookup_store_ne _ _ hne]
      exact hnew x (List.mem_cons_of_mem _ hx)
    · exact hnd.2

/-- The freshly seeded server is consistent. -/
theorem Consistent_NewOrderServer [GoFloat64 F] (stamp : Nat → String) :
    Consistent (NewOrderServer stamp : orderServer F) := by
  have hloop := Consistent_seed_loop (seedList stamp : List (Order F))
    { orders := [], userOrders := [], orderCounter := 1, maintenanceMode := false }
    ⟨fun userId o ho => by simp [ordersOf, GoMap.index, GoMap.lookup] at ho,
      fun orderId o ho => by simp [GoMap.lookup] at ho⟩
    (fun o _ => rfl)
    (by simp only [seedList, List.map_cons, List.map_nil]; decide)
  exact ⟨hloop.1, hloop.2⟩

/-- The keys of the primary map of the freshly seeded server. -/
theorem seed_keys [GoFloat64 F] (stamp : Nat → String) :
    (NewOrderServer stamp : orderServer F).orders.map Prod.fst =
      ["order-001", "order-002", "order-003", "order-004", "order-005", "order-999",
        "order-998", "order-997"] := by
  rfl

/-- In the freshly seeded server no counter value from 8 to 996 formats to a key. -/
theorem seed_fresh [GoFloat64 F] (stamp : Nat → String) (c : Nat) (h₀ : 8 ≤ c) (h₁ : c < 997) :
    (NewOrderServer stamp : orderServer F).orders.lookup ("order-" ++ sprintf03d (c : Int))
      = none := by
  rw [lookup_eq_none_iff, seed_keys]
  have key : ∀ k : Nat, k < 1000 → k ≠ c →
      "order-" ++ sprintf03d (c : Int) ≠ "order-" ++ sprintf03d (k : Int) :=
    fun k hk hne e => hne (sprintf_injective_below_1000 hk (by omega) e.symm)
  have e1 : "order-" ++ sprintf03d ((1 : Nat) : Int) = "order-001" := by decide
  have e2 : "order-" ++ sprintf03d ((2 : Nat) : Int) = "order-002" := by decide
  have e3 : "order-" ++ sprintf03d ((3 : Nat) : Int) = "order-003" := by decide
  have e4 : "order-" ++ sprintf03d ((4 : Nat) : Int) = "order-004" := by decide
  have e5 : "order-" ++ sprintf03d ((5 : Nat) : Int) = "order-005" := by decide
  have e7 : "order-" ++ sprintf03d ((997 : Nat) : Int) = "order-997" := by decide
  have e8 : "order-" ++ sprintf03d ((998 : Nat) : Int) = "order-998" := by decide
  have e9 : "order-" ++ sprintf03d ((999 : Nat) : Int) = "order-999" := by decide
  simp only [List.mem_cons, List.mem_singleton, List.not_mem_nil, or_false, not_or]
  refine ⟨?_, ?_, ?_, ?_, ?_, ?_, ?_, ?_⟩
  · exact e1 ▸ key 1 (by decide) (by omega)
  · exact e2 ▸ key 2 (by decide) (by omega)
  · exact e3 ▸ key 3 (by decide) (by omega)
  · exact e4 ▸ key 4 (by decide) (by omega)
  · exact e5 ▸ key 5 (by decide) (by omega)
  · exact e9 ▸ key 999 (by decide) (by omega)
  · exact e8 ▸ key 998 (by decide) (by omega)
  · exact e7 ▸ key 997 (by decide) (by omega)

/-- One `CreateOrder` call keeps the invariant of a run below the first seed identifier ahead
of the counter: the state is consistent, the counter is not negative, and no counter value
from the current one to 996 formats to a key of the primary map. -/
theorem CreateOrder_keeps_fresh [GoFloat64 F] (s : orderServer F) (req : CreateOrderRequest F)
    (createdAt updatedAt : String) (hc : Consistent s) (h₀ : 0 ≤ s.orderCounter)
    (h₁ : s.orderCounter < 997)
    (hf : ∀ c : Nat, s.orderCounter ≤ c → c < 997 →
      s.orders.lookup ("order-" ++ sprintf03d (c : Int)) = none) :
    Consistent (CreateOrder s req createdAt updatedAt).1 ∧
    (CreateOrder s req createdAt updatedAt).1.orderCounter = s.orderCounter + 1 ∧
    (∀ c : Nat, s.orderCounter + 1 ≤ c → c < 997 →
      (CreateOrder s req createdAt updatedAt).1.orders.lookup
        ("order-" ++ sprintf03d (c : Int)) = none) := by
  have hcur : s.orderCounter = ((s.orderCounter.toNat : Nat) : Int) :=
    (Int.toNat_of_nonneg h₀).symm
  have hfresh : s.orders.lookup ("order-" ++ sprintf03d s.orderCounter) = none := by
    have := hf s.orderCounter.toNat (by omega) (by omega)
    rwa [← hcur] at this
  refine ⟨Consistent_CreateOrder s req createdAt updatedAt hc hfresh, ?_, ?_⟩
  · rw [(CreateOrder_state s req createdAt updatedAt).1]
    exact wrapInt_of_range (by omega) (by omega)
  · intro c hc₀ hc₁
    have hne : "order-" ++ sprintf03d (c : Int) ≠ "order-" ++ sprintf03d s.orderCounter := by
      intro e
      rw [hcur] at e
      have := sprintf_injective_below_1000 (by omega) (by omega) e
      omega
    show (s.orders.store _ _).lookup _ = none
    rw [GoMap.lookup_store_ne _ _ hne]
    exact hf c (by omega) hc₁

/-- A run that ends with the counter at 997 or below keeps that invariant. -/
theorem runCreates_keeps_fresh [GoFloat64 F] (calls : List (CreateCall F)) (s : orderServer F)
    (hc : Consistent s) (h₀ : 0 ≤ s.orderCounter) (h₁ : s.orderCounter + calls.length ≤ 997)
    (hf : ∀ c : Nat, s.orderCounter ≤ c → c < 997 →
      s.orders.lookup ("order-" ++ sprintf03d (c : Int)) = none) :
    Consistent (runCreates s calls) ∧
    (runCreates s calls).orderCounter = s.orderCounter + calls.length ∧
    (∀ c : Nat, (runCreates s calls).orderCounter ≤ c → c < 997 →
      (runCreates s calls).orders.lookup ("order-" ++ sprintf03d (c : Int)) = none) := by
  induction calls generalizing s with
  | nil => exact ⟨hc, by simp [runCreates], hf⟩
  | cons call calls ih =>
    simp only [List.length_cons, Nat.cast_add, Nat.cast_one] at h₁
    obtain ⟨k₁, k₂, k₃⟩ := CreateOrder_keeps_fresh s call.1 call.2.1 call.2.2 hc h₀
      (by omega) hf
    have := ih (CreateOrder s call.1 call.2.1 call.2.2).1 k₁ (by omega) (by omega)
      (fun c hc₀ hc₁ => k₃ c (by omega) hc₁)
    simp only [runCreates, List.foldl_cons] at this ⊢
    refine ⟨this.1, ?_, this.2.2⟩
    rw [this.2.1, k₂]
    simp only [List.length_cons, Nat.cast_add, Nat.cast_one]
    omega

/-- What the code does keep, for any requests: from the freshly seeded server the state after
at most 989 `CreateOrder` calls is consistent, and after fewer than 989 calls the identifier
that the next call assigns is not yet a key of the primary map. The 990th call is the first
that reuses an identifier. -/
theorem first_989_calls_fresh [GoFloat64 F] (stamp : Nat → String)
    (calls : List (CreateCall F)) (h : calls.length ≤ 989) :
    Consistent (runCreates (NewOrderServer stamp) calls) ∧
    (calls.length < 989 →
      (runCreates (NewOrderServer stamp) calls).orders.lookup
        ("order-" ++ sprintf03d (runCreates (NewOrderServer stamp) calls).orderCounter) = none) := by
  have hcnt : (NewOrderServer stamp : orderServer F).orderCounter = 8 := rfl
  obtain ⟨k₁, k₂, k₃⟩ := runCreates_keeps_fresh calls (NewOrderServer stamp : orderServer F)
    (Consistent_NewOrderServer stamp) (by rw [hcnt]; decide) (by rw [hcnt]; omega)
    (fun c hc₀ hc₁ => seed_fresh stamp c (by rw [hcnt] at hc₀; omega) hc₁)
  refine ⟨k₁, fun hlt => ?_⟩
  rw [hcnt] at k₂
  have := k₃ (8 + calls.length) (by rw [k₂]; simp) (by omega)
  rw [k₂]
  simpa using this

end orderServer

/-! ### Negative offset or limit -/

section Negative

open pb

/-- With a negative offset or limit the bounds computed by the three list methods are not
`0 ≤ start ≤ end`: the slice expression is out of range. -/
theorem bounds_of_negative (n : Nat) (offset limit : Int) (h : offset < 0 ∨ limit < 0) :
    ¬ (0 ≤ (if offset > n then (n : Int) else offset) ∧
      (if offset > n then (n : Int) else offset) ≤
        (if (if offset > n then (n : Int) else offset) + limit > n then (n : Int)
          else (if offset > n then (n : Int) else offset) + limit)) := by
  intro hb
  split_ifs at hb <;> omega

/-- For a non-negative offset and limit the bounds of the slice expression are in range, and
they are `min offset n` and `min (min offset n + limit) n`. -/
theorem bounds_of_nat (n limit offset : Nat) :
    (0 ≤ (if (offset : Int) > n then (n : Int) else offset) ∧
      (if (offset : Int) > n then (n : Int) else offset) ≤
        (if (if (offset : Int) > n then (n : Int) else offset) + limit > n then (n : Int)
          else (if (offset : Int) > n then (n : Int) else offset) + limit)) ∧
    (if (offset : Int) > n then (n : Int) else offset).toNat = min offset n ∧
    (if (if (offset : Int) > n then (n : Int) else offset) + limit > n then (n : Int)
        else (if (offset : Int) > n then (n : Int) else offset) + limit).toNat
      - (if (offset : Int) > n then (n : Int) else offset).toNat =
      min (min offset n + limit) n - min offset n := by
  split_ifs <;> omega

/-- C11, counterexample. On the seeded order server `ListOrdersByUser` for `user-001` with
limit 1 and offset -1 panics, while with the offset replaced by 0 it returns the page with
the first seed order and the total 5: the negative offset is not treated as zero. -/
theorem ListOrdersByUser_negative_offset :
    orderServer.ListOrdersByUser (orderServer.NewOrderServer (fun _ => "t") : orderServer ℚ)
        ⟨"user-001", 1, -1⟩ = .panic ∧
    orderServer.ListOrdersByUser (orderServer.NewOrderServer (fun _ => "t") : orderServer ℚ)
        ⟨"user-001", 1, 0⟩ =
      .ret (some
        ⟨[⟨"order-001", "user-001", [⟨"prod-001", 1, 1299.99⟩, ⟨"prod-002", 2, 29.99⟩],
          1359.97, OrderStatus.ORDER_STATUS_DELIVERED, "t", "t"⟩], 5⟩) none ∧
    orderServer.ListOrdersByUser (orderServer.NewOrderServer (fun _ => "t") : orderServer ℚ)
        ⟨"user-001", 1, -1⟩ ≠
      orderServer.ListOrdersByUser (orderServer.NewOrderServer (fun _ => "t") : orderServer ℚ)
        ⟨"user-001", 1, 0⟩ := by
  have h₁ : orderServer.ListOrdersByUser (orderServer.NewOrderServer (fun _ => "t") : orderServer ℚ)
      ⟨"user-001", 1, -1⟩ = .panic := by rfl
  have h₂ : orderServer.ListOrdersByUser (orderServer.NewOrderServer (fun _ => "t") : orderServer ℚ)
      ⟨"user-001", 1, 0⟩ =
      .ret (some
        ⟨[⟨"order-001", "user-001", [⟨"prod-001", 1, 1299.99⟩, ⟨"prod-002", 2, 29.99⟩],
          1359.97, OrderStatus.ORDER_STATUS_DELIVERED, "t", "t"⟩], 5⟩) none := by rfl
  refine ⟨h₁, h₂, ?_⟩
  rw [h₁, h₂]
  simp

/-- C11, amended. None of the three list methods clamps: for every state and every request
whose offset or limit is negative, `ListOrdersByUser`, `ListUsers` (whatever the order of the
map iteration) and `ListProducts` (likewise) panic at the slice expression and return neither
a page nor a total; for a non-negative offset and limit each of them returns a response and
no error. -/
theorem list_negative_panics :
    (∀ (F : Type) (s : orderServer F) (req : ListOrdersByUserRequest),
      req.Offset < 0 ∨ req.Limit < 0 → orderServer.ListOrdersByUser s req = .panic) ∧
    (∀ (rangeOrder : GoMap User → GoMap User) (s : userServer) (req : ListUsersRequest),
      req.Offset < 0 ∨ req.Limit < 0 → userServer.ListUsers rangeOrder s req = .panic) ∧
    (∀ (F : Type) (rangeOrder : GoMap (Product F) → GoMap (Product F)) (s : productServer F)
        (req : ListProductsRequest),
      req.Offset < 0 ∨ req.Limit < 0 → productServer.ListProducts rangeOrder s req = .panic) ∧
    (∀ (F : Type) (s : orderServer F) (req : ListOrdersByUserRequest),
      0 ≤ req.Offset → 0 ≤ req.Limit →
      ∃ resp, orderServer.ListOrdersByUser s req = .ret (some resp) none) ∧
    (∀ (rangeOrder : GoMap User → GoMap User) (s : userServer) (req : ListUsersRequest),
      0 ≤ req.Offset → 0 ≤ req.Limit →
      ∃ resp, userServer.ListUsers rangeOrder s req = .ret (some resp) none) ∧
    (∀ (F : Type) (rangeOrder : GoMap (Product F) → GoMap (Product F)) (s : productServer F)
        (req : ListProductsRequest),
      0 ≤ req.Offset → 0 ≤ req.Limit →
      ∃ resp, productServer.ListProducts rangeOrder s req = .ret (some resp) none) := by
  have hb : ∀ (n : Nat) (offset limit : Int), 0 ≤ offset → 0 ≤ limit →
      (0 ≤ (if offset > n then (n : Int) else offset) ∧
        (if offset > n then (n : Int) else offset) ≤
          (if (if offset > n then (n : Int) else offset) + limit > n then (n : Int)
            else (if offset > n then (n : Int) else offset) + limit)) := by
    intro n offset limit h₀ h₁
    have h := (bounds_of_nat n limit.toNat offset.toNat).1
    rwa [Int.toNat_of_nonneg h₀, Int.toNat_of_nonneg h₁] at h
  refine ⟨?_, ?_, ?_, ?_, ?_, ?_⟩
  · intro F s req h
    simp only [orderServer.ListOrdersByUser]
    rw [if_neg (bounds_of_negative _ _ _ h)]
  · intro rangeOrder s req h
    simp only [userServer.ListUsers]
    rw [if_neg (bounds_of_negative _ _ _ h)]
  · intro F rangeOrder s req h
    simp only [productServer.ListProducts]
    rw [if_neg (bounds_of_negative _ _ _ h)]
  · intro F s req h₀ h₁
    simp only [orderServer.ListOrdersByUser]
    rw [if_pos (hb _ _ _ h₀ h₁)]
    exact ⟨_, rfl⟩
  · intro rangeOrder s req h₀ h₁
    simp only [userServer.ListUsers]
    rw [if_pos (hb _ _ _ h₀ h₁)]
    exact ⟨_, rfl⟩
  · intro F rangeOrder s req h₀ h₁
    simp only [productServer.ListProducts]
    rw [if_pos (hb _ _ _ h₀ h₁)]
    exact ⟨_, rfl⟩

/-- C11, amended, on the seed data: a negative limit for orders, a negative offset for users
and a negative limit for products, each one a panic. -/
theorem list_negative_panics_witness :
    orderServer.ListOrdersByUser (orderServer.NewOrderServer (fun _ => "t") : orderServer ℚ)
        ⟨"user-001", -1, 0⟩ = .panic ∧
    userServer.ListUsers id (userServer.NewUserServer (fun _ => "t")) ⟨10, -2⟩ = .panic ∧
    productServer.ListProducts id
        (productServer.NewProductServer (fun _ => "t") : productServer ℚ)
        ⟨"Electronics", -10, 0⟩ = .panic :=
  ⟨list_negative_panics.1 ℚ _ ⟨"user-001", -1, 0⟩ (Or.inr (by decide)),
    list_negative_panics.2.1 id _ ⟨10, -2⟩ (Or.inl (by decide)),
    list_negative_panics.2.2.1 ℚ id _ ⟨"Electronics", -10, 0⟩ (Or.inr (by decide))⟩

end Negative

/-! ### Maintenance mode and the two error constructors -/

section Maintenance

open errorutil pb

/-- C12. With the maintenance flag set, each of `GetUser`, `GetProduct` and `GetOrder`
returns, for every identifier and whatever the map holds, no response record and the error
that `UnavailableError` builds for the service's maintenance reason, a real error; once the
status library has attached the detail that error is the UNAVAILABLE status with the
service's maintenance message and the single reason `USER_ERROR_REASON_MAINTENANCE`,
`PRODUCT_ERROR_REASON_MAINTENANCE` or `ORDER_ERROR_REASON_MAINTENANCE`. The map is not
consulted: the result is the same for a stored and for an unknown identifier, for a
suspended user, a product out of stock and a cancelled order. -/
theorem Get_under_maintenance (F : Type) (marshal : Marshal) :
    (∀ (s : userServer) (req : GetUserRequest), s.maintenanceMode = true →
      userServer.GetUser marshal s req = .ret none
        (UnavailableError marshal "user service is under maintenance"
          UserErrorReason.USER_ERROR_REASON_MAINTENANCE) ∧
      (UnavailableError marshal "user service is under maintenance"
          UserErrorReason.USER_ERROR_REASON_MAINTENANCE).isSome = true ∧
      (marshal (Detail.ErrorInfo "USER_ERROR_REASON_MAINTENANCE") = none →
        userServer.GetUser marshal s req = .ret none (some ⟨Code.Unavailable,
          "user service is under maintenance",
          [Detail.ErrorInfo "USER_ERROR_REASON_MAINTENANCE"]⟩))) ∧
    (∀ (s : productServer F) (req : GetProductRequest), s.maintenanceMode = true →
      productServer.GetProduct marshal s req = .ret none
        (UnavailableError marshal "product service is under maintenance"
          ProductErrorReason.PRODUCT_ERROR_REASON_MAINTENANCE) ∧
      (UnavailableError marshal "product service is under maintenance"
          ProductErrorReason.PRODUCT_ERROR_REASON_MAINTENANCE).isSome = true ∧
      (marshal (Detail.ErrorInfo "PRODUCT_ERROR_REASON_MAINTENANCE") = none →
        productServer.GetProduct marshal s req = .ret none (some ⟨Code.Unavailable,
          "product service is under maintenance",
          [Detail.ErrorInfo "PRODUCT_ERROR_REASON_MAINTENANCE"]⟩))) ∧
    (∀ (s : orderServer F) (req : GetOrderRequest), s.maintenanceMode = true →
      orderServer.GetOrder marshal s req = .ret none
        (UnavailableError marshal "order service is under maintenance"
          OrderErrorReason.ORDER_ERROR_REASON_MAINTENANCE) ∧
      (UnavailableError marshal "order service is under maintenance"
          OrderErrorReason.ORDER_ERROR_REASON_MAINTENANCE).isSome = true ∧
      (marshal (Detail.ErrorInfo "ORDER_ERROR_REASON_MAINTENANCE") = none →
        orderServer.GetOrder marshal s req = .ret none (some ⟨Code.Unavailable,
          "order service is under maintenance",
          [Detail.ErrorInfo "ORDER_ERROR_REASON_MAINTENANCE"]⟩))) := by
  refine ⟨?_, ?_, ?_⟩
  · intro s req hm
    have h : userServer.GetUser marshal s req = .ret none
        (UnavailableError marshal "user service is under maintenance"
          UserErrorReason.USER_ERROR_REASON_MAINTENANCE) := by
      simp [userServer.GetUser, hm]
    refine ⟨h, by simp [UnavailableError_eq], fun ha => ?_⟩
    rw [h, UnavailableError_eq]
    simp only [ErrorReasonStringer.String] at ha ⊢
    rw [ha]
  · intro s req hm
    have h : productServer.GetProduct marshal s req = .ret none
        (UnavailableError marshal "product service is under maintenance"
          ProductErrorReason.PRODUCT_ERROR_REASON_MAINTENANCE) := by
      simp [productServer.GetProduct, hm]
    refine ⟨h, by simp [UnavailableError_eq], fun ha => ?_⟩
    rw [h, UnavailableError_eq]
    simp only [ErrorReasonStringer.String] at ha ⊢
    rw [ha]
  · intro s req hm
    have h : orderServer.GetOrder marshal s req = .ret none
        (UnavailableError marshal "order service is under maintenance"
          OrderErrorReason.ORDER_ERROR_REASON_MAINTENANCE) := by
      simp [orderServer.GetOrder, hm]
    refine ⟨h, by simp [UnavailableError_eq], fun ha => ?_⟩
    rw [h, UnavailableError_eq]
    simp only [ErrorReasonStringer.String] at ha ⊢
    rw [ha]

/-- C12 on services that hold the seed data and are under maintenance: the stored and
suspended `user-999`, the unknown `prod-404` and the cancelled `order-999` all get the
UNAVAILABLE error of their service. -/
theorem Get_under_maintenance_witness :
    userServer.GetUser (fun _ => none)
        { userServer.NewUserServer (fun _ => "t") with maintenanceMode := true }
        ⟨"user-999"⟩ =
      .ret none (some ⟨Code.Unavailable, "user service is under maintenance",
        [Detail.ErrorInfo "USER_ERROR_REASON_MAINTENANCE"]⟩) ∧
    productServer.GetProduct (fun _ => none)
        ({ productServer.NewProductServer (fun _ => "t") with maintenanceMode := true } :
          productServer ℚ) ⟨"prod-404"⟩ =
      .ret none (some ⟨Code.Unavailable, "product service is under maintenance",
        [Detail.ErrorInfo "PRODUCT_ERROR_REASON_MAINTENANCE"]⟩) ∧
    orderServer.GetOrder (fun _ => none)
        ({ orderServer.NewOrderServer (fun _ => "t") with maintenanceMode := true } :
          orderServer ℚ) ⟨"order-999"⟩ =
      .ret none (some ⟨Code.Unavailable, "order service is under maintenance",
        [Detail.ErrorInfo "ORDER_ERROR_REASON_MAINTENANCE"]⟩) :=
  ⟨((Get_under_maintenance ℚ (fun _ => none)).1 _ ⟨"user-999"⟩ rfl).2.2 rfl,
    ((Get_under_maintenance ℚ (fun _ => none)).2.1 _ ⟨"prod-404"⟩ rfl).2.2 rfl,
    ((Get_under_maintenance ℚ (fun _ => none)).2.2 _ ⟨"order-999"⟩ rfl).2.2 rfl⟩

/-- Attaching a detail to a fresh status whose code is not OK succeeds exactly when the
detail marshals. -/
theorem WithDetails_New (marshal : Marshal) (c : Code) (msg : String) (d : Detail)
    (hc : c ≠ Code.OK) :
    (marshal d = none → (status.New c msg).WithDetails marshal d = .ok ⟨c, msg, [d]⟩) ∧
    (∀ failure, marshal d = some failure →
      (status.New c msg).WithDetails marshal d = .error failure) := by
  constructor
  · intro h
    simp [Status.WithDetails, status.New, hc, h]
  · intro failure h
    simp [Status.WithDetails, status.New, hc, h]

/-- C13. `FailedPreconditionError` returns a FAILED_PRECONDITION error in both of its
branches. When `WithDetails` succeeds the error is the status it returned: code
FAILED_PRECONDITION, empty message, and as only detail the `PreconditionFailure` with exactly
one violation, whose type is the code's `String()`, whose subject and description are the
given ones. When `WithDetails` fails the error has code FAILED_PRECONDITION, the description
as message and no detail. One of the two cases always applies. -/
theorem FailedPreconditionError_branches {α : Type} [FailureCodeStringer α]
    (marshal : Marshal) (failureCode : α) (subject description : String) :
    (∀ st, (status.New Code.FailedPrecondition "").WithDetails marshal
          (Detail.PreconditionFailure
            [⟨FailureCodeStringer.String failureCode, subject, description⟩]) = .ok st →
      FailedPreconditionError marshal failureCode subject description = some st ∧
      st = ⟨Code.FailedPrecondition, "",
        [Detail.PreconditionFailure
          [⟨FailureCodeStringer.String failureCode, subject, description⟩]]⟩) ∧
    (∀ err, (status.New Code.FailedPrecondition "").WithDetails marshal
          (Detail.PreconditionFailure
            [⟨FailureCodeStringer.String failureCode, subject, description⟩]) = .error err →
      FailedPreconditionError marshal failureCode subject description =
        some ⟨Code.FailedPrecondition, description, []⟩) ∧
    (∃ e, FailedPreconditionError marshal failureCode subject description = some e ∧
      e.code = Code.FailedPrecondition) := by
  have hw := WithDetails_New marshal Code.FailedPrecondition ""
    (Detail.PreconditionFailure
      [⟨FailureCodeStringer.String failureCode, subject, description⟩]) (by decide)
  have heq := FailedPreconditionError_eq marshal failureCode subject description
  refine ⟨?_, ?_, ?_⟩
  · intro st h
    cases hm : marshal (Detail.PreconditionFailure
        [⟨FailureCodeStringer.String failureCode, subject, description⟩]) with
    | none =>
      rw [hw.1 hm, Except.ok.injEq] at h
      rw [heq, if_pos hm, h]
      exact ⟨rfl, rfl⟩
    | some failure =>
      rw [hw.2 failure hm] at h
      exact absurd h (by simp)
  · intro err h
    cases hm : marshal (Detail.PreconditionFailure
        [⟨FailureCodeStringer.String failureCode, subject, description⟩]) with
    | none =>
      rw [hw.1 hm] at h
      exact absurd h (by simp)
    | some failure =>
      rw [heq, if_neg (by rw [hm]; simp)]
  · rw [heq]
    refine ⟨_, rfl, ?_⟩
    split <;> rfl

/-- C13 for the order-not-found code: with a marshalling that succeeds the error carries
the one violation, with one that fails it is the plain FAILED_PRECONDITION error. -/
theorem FailedPreconditionError_branches_witness :
    FailedPreconditionError (fun _ => none)
        OrderFailureCode.ORDER_FAILURE_CODE_ORDER_NOT_FOUND "OrderService/GetOrder"
        "Order not found: order-404" =
      some ⟨Code.FailedPrecondition, "",
        [Detail.PreconditionFailure [⟨"ORDER_FAILURE_CODE_ORDER_NOT_FOUND",
          "OrderService/GetOrder", "Order not found: order-404"⟩]]⟩ ∧
    FailedPreconditionError (fun _ => some "cannot marshal")
        OrderFailureCode.ORDER_FAILURE_CODE_ORDER_NOT_FOUND "OrderService/GetOrder"
        "Order not found: order-404" =
      some ⟨Code.FailedPrecondition, "Order not found: order-404", []⟩ :=
  ⟨((FailedPreconditionError_branches (fun _ => none)
      OrderFailureCode.ORDER_FAILURE_CODE_ORDER_NOT_FOUND "OrderService/GetOrder"
      "Order not found: order-404").1 _ rfl).1,
    (FailedPreconditionError_branches (fun _ => some "cannot marshal")
      OrderFailureCode.ORDER_FAILURE_CODE_ORDER_NOT_FOUND "OrderService/GetOrder"
      "Order not found: order-404").2.1 "cannot marshal" rfl⟩

/-- C14. When `WithDetails` succeeds, `UnavailableError` returns the status it returned:
code UNAVAILABLE, the cause's text as message, and as only detail the `ErrorInfo` whose
reason is the reason code's `String()` and that has no other field set. When `WithDetails`
fails it returns an error of code INTERNAL, not UNAVAILABLE, with the text
`failed to set details: ` followed by the failure, and no detail. -/
theorem UnavailableError_branches {ρ : Type} [ErrorReasonStringer ρ] (marshal : Marshal)
    (err : String) (reason : ρ) :
    (∀ st, (status.New Code.Unavailable err).WithDetails marshal
          (Detail.ErrorInfo (ErrorReasonStringer.String reason)) = .ok st →
      UnavailableError marshal err reason = some st ∧
      st = ⟨Code.Unavailable, err, [Detail.ErrorInfo (ErrorReasonStringer.String reason)]⟩) ∧
    (∀ withErr, (status.New Code.Unavailable err).WithDetails marshal
          (Detail.ErrorInfo (ErrorReasonStringer.String reason)) = .error withErr →
      UnavailableError marshal err reason =
        some ⟨Code.Internal, "failed to set details: " ++ withErr, []⟩ ∧
      Code.Internal ≠ Code.Unavailable) := by
  have hw := WithDetails_New marshal Code.Unavailable err
    (Detail.ErrorInfo (ErrorReasonStringer.String reason)) (by decide)
  have heq := UnavailableError_eq marshal err reason
  refine ⟨?_, ?_⟩
  · intro st h
    cases hm : marshal (Detail.ErrorInfo (ErrorReasonStringer.String reason)) with
    | none =>
      rw [hw.1 hm, Except.ok.injEq] at h
      rw [heq, hm, h]
      exact ⟨rfl, rfl⟩
    | some failure =>
      rw [hw.2 failure hm] at h
      exact absurd h (by simp)
  · intro withErr h
    cases hm : marshal (Detail.ErrorInfo (ErrorReasonStringer.String reason)) with
    | none =>
      rw [hw.1 hm] at h
      exact absurd h (by simp)
    | some failure =>
      rw [hw.2 failure hm, Except.error.injEq] at h
      rw [heq, hm, h]
      exact ⟨rfl, by decide⟩

/-- C14 for the maintenance reason of the order service, in both branches. -/
theorem UnavailableError_branches_witness :
    UnavailableError (fun _ => none) "order service is under maintenance"
        OrderErrorReason.ORDER_ERROR_REASON_MAINTENANCE =
      some ⟨Code.Unavailable, "order service is under maintenance",
        [Detail.ErrorInfo "ORDER_ERROR_REASON_MAINTENANCE"]⟩ ∧
    UnavailableError (fun _ => some "cannot marshal") "order service is under maintenance"
        OrderErrorReason.ORDER_ERROR_REASON_MAINTENANCE =
      some ⟨Code.Internal, "failed to set details: " ++ "cannot marshal", []⟩ :=
  ⟨((UnavailableError_branches (fun _ => none) "order service is under maintenance"
      OrderErrorReason.ORDER_ERROR_REASON_MAINTENANCE).1 _ rfl).1,
    ((UnavailableError_branches (fun _ => some "cannot marshal")
      "order service is under maintenance"
      OrderErrorReason.ORDER_ERROR_REASON_MAINTENANCE).2 "cannot marshal" rfl).1⟩

end Maintenance

/-! ### Listing and bulk lookup of products -/

namespace productServer

variable {F : Type}

open pb

/-- The loop of `ListProducts` collects, in the order of the iteration, the products whose
category passes the filter. -/
theorem foldl_filter_category (category : String) (l : GoMap (Product F))
    (acc : List (Product F)) :
    l.foldl
        (fun products entry =>
          if category = "" ∨ entry.2.Category = category then products ++ [entry.2]
          else products)
        acc =
      acc ++ (l.filter (fun entry => decide (category = "" ∨ entry.2.Category = category))).map
        Prod.snd := by
  induction l generalizing acc with
  | nil => simp
  | cons e l ih =>
    rw [List.foldl_cons, ih]
    by_cases h : category = "" ∨ e.2.Category = category
    · simp [h]
    · simp [h]

/-- The result of `ListProducts` for a non-negative offset and limit. -/
theorem ListProducts_of_nat (rangeOrder : GoMap (Product F) → GoMap (Product F))
    (s : productServer F) (category : String) (limit offset : Nat) :
    ListProducts rangeOrder s ⟨category, (limit : Int), (offset : Int)⟩ =
      .ret (some
        { Products :=
            ((((rangeOrder s.products).filter
                (fun entry => decide (category = "" ∨ entry.2.Category = category))).map
                Prod.snd).drop
              (min offset (((rangeOrder s.products).filter
                (fun entry => decide (category = "" ∨ entry.2.Category = category))).map
                Prod.snd).length)).take
              (min (min offset (((rangeOrder s.products).filter
                  (fun entry => decide (category = "" ∨ entry.2.Category = category))).map
                  Prod.snd).length + limit)
                  (((rangeOrder s.products).filter
                    (fun entry => decide (category = "" ∨ entry.2.Category = category))).map
                    Prod.snd).length
                - min offset (((rangeOrder s.products).filter
                  (fun entry => decide (category = "" ∨ entry.2.Category = category))).map
                  Prod.snd).length)
          Total := int32 (((rangeOrder s.products).filter
            (fun entry => decide (category = "" ∨ entry.2.Category = category))).map
            Prod.snd).length }) none := by
  simp only [ListProducts, foldl_filter_category, List.nil_append]
  generalize ((rangeOrder s.products).filter
    (fun entry => decide (category = "" ∨ entry.2.Category = category))).map Prod.snd = l
  obtain ⟨hb, hs, he⟩ := bounds_of_nat l.length limit offset
  rw [if_pos hb, he, hs]

/-- C15, counterexample. A product service that stores 2147483648 products, under the
identifiers `0`, `1`, ..., reports for the empty category, limit 0 and offset 0 the total
-2147483648, not the number of stored products: the `int32` conversion of the length wraps
around. -/
theorem ListProducts_total_wraps :
    ((List.range 2147483648).map
      (fun i => (Nat.repr i, (⟨Nat.repr i, "n", "d", 1, "c", 1, "t"⟩ : Product ℚ)))).length =
      2147483648 ∧
    ListProducts id
        (⟨(List.range 2147483648).map
          (fun i => (Nat.repr i, (⟨Nat.repr i, "n", "d", 1, "c", 1, "t"⟩ : Product ℚ))),
          false⟩ : productServer ℚ) ⟨"", 0, 0⟩ =
      .ret (some ⟨[], -2147483648⟩) none := by
  have hl : ((List.range 2147483648).map
      (fun i => (Nat.repr i, (⟨Nat.repr i, "n", "d", 1, "c", 1, "t"⟩ : Product ℚ)))).length =
      2147483648 := by
    rw [List.length_map, List.length_range]
  have key : ∀ P : GoMap (Product ℚ), P.length = 2147483648 →
      ListProducts id (⟨P, false⟩ : productServer ℚ) ⟨"", 0, 0⟩ =
        .ret (some ⟨[], -2147483648⟩) none := by
    intro P hP
    have h := ListProducts_of_nat id (⟨P, false⟩ : productServer ℚ) "" 0 0
    have hf : (P.filter (fun entry => decide (True ∨ entry.2.Category = ""))) = P :=
      List.filter_eq_self.mpr (fun e _ => by simp)
    simp only [id] at h
    rw [hf] at h
    simp only [List.length_map, hP] at h
    have h32 : int32 ((2147483648 : Nat) : Int) = -2147483648 := by decide
    rw [h32] at h
    simpa using h
  exact ⟨hl, key _ hl⟩

/-- C15, amended. For an iteration over all entries of the map, in whatever order, and a
non-negative limit and offset, `ListProducts` returns no error. With `K` the number of stored
products whose category equals the requested one (all stored products when the requested
category is empty; the stock plays no part), the total is `K` converted to `int32`, which is
`K` when `K < 2 ^ 31`; the page has `min limit (K - min offset K)` products, each of them
stored and passing the filter; and with offset 0 and a limit of at least `K` the page holds
every stored product that passes the filter, those with stock 0 included. -/
theorem ListProducts_page (rangeOrder : GoMap (Product F) → GoMap (Product F))
    (s : productServer F) (req : ListProductsRequest)
    (hperm : (rangeOrder s.products).Perm s.products)
    (h₀ : 0 ≤ req.Offset) (h₁ : 0 ≤ req.Limit) :
    ∃ page, ListProducts rangeOrder s req =
        .ret (some ⟨page, int32 (s.products.filter
          (fun entry => decide (req.Category = "" ∨ entry.2.Category = req.Category))).length⟩)
          none ∧
      page.length = min req.Limit.toNat
        ((s.products.filter
            (fun entry => decide (req.Category = "" ∨ entry.2.Category = req.Category))).length
          - min req.Offset.toNat (s.products.filter
            (fun entry => decide (req.Category = "" ∨ entry.2.Category = req.Category))).length) ∧
      (∀ p ∈ page, (req.Category = "" ∨ p.Category = req.Category) ∧
        ∃ id, (id, p) ∈ s.products) ∧
      (req.Category = "" →
        (s.products.filter
          (fun entry => decide (req.Category = "" ∨ entry.2.Category = req.Category))).length
          = s.products.length) ∧
      (((s.products.filter
          (fun entry => decide (req.Category = "" ∨ entry.2.Category = req.Category))).length
          : Int) < 2 ^ 31 →
        int32 (s.products.filter
          (fun entry => decide (req.Category = "" ∨ entry.2.Category = req.Category))).length =
          (s.products.filter
            (fun entry => decide (req.Category = "" ∨ entry.2.Category = req.Category))).length) ∧
      (req.Offset = 0 →
        ((s.products.filter
          (fun entry => decide (req.Category = "" ∨ entry.2.Category = req.Category))).length
          : Int) ≤ req.Limit →
        ∀ id p, (id, p) ∈ s.products → (req.Category = "" ∨ p.Category = req.Category) →
          p ∈ page) := by
  obtain ⟨category, limit, offset⟩ := req
  simp only at h₀ h₁ ⊢
  have hmain := ListProducts_of_nat rangeOrder s category limit.toNat offset.toNat
  rw [Int.toNat_of_nonneg h₀, Int.toNat_of_nonneg h₁] at hmain
  have hfp : ((rangeOrder s.products).filter
      (fun entry => decide (category = "" ∨ entry.2.Category = category))).Perm
      (s.products.filter (fun entry => decide (category = "" ∨ entry.2.Category = category))) :=
    hperm.filter _
  have hlen : (((rangeOrder s.products).filter
      (fun entry => decide (category = "" ∨ entry.2.Category = category))).map Prod.snd).length =
      (s.products.filter
        (fun entry => decide (category = "" ∨ entry.2.Category = category))).length := by
    rw [List.length_map, hfp.length_eq]
  rw [hlen] at hmain
  refine ⟨_, hmain, ?_, ?_, ?_, ?_, ?_⟩
  · rw [List.length_take, List.length_drop, hlen]
    omega
  · intro p hp
    have hp' := List.mem_of_mem_drop (List.mem_of_mem_take hp)
    rw [List.mem_map] at hp'
    obtain ⟨e, he, rfl⟩ := hp'
    rw [List.mem_filter] at he
    exact ⟨by simpa using he.2, e.1, hperm.mem_iff.mp he.1⟩
  · intro hc
    simp [hc]
  · exact orderServer.int32_of_lt
  · intro ho hl id p hmem hcond
    subst ho
    have hk : min (min (Int.toNat 0) (s.products.filter
        (fun entry => decide (category = "" ∨ entry.2.Category = category))).length
          + limit.toNat)
        (s.products.filter
          (fun entry => decide (category = "" ∨ entry.2.Category = category))).length
        - min (Int.toNat 0) (s.products.filter
          (fun entry => decide (category = "" ∨ entry.2.Category = category))).length =
        (((rangeOrder s.products).filter
          (fun entry => decide (category = "" ∨ entry.2.Category = category))).map
          Prod.snd).length := by
      rw [hlen]
      simp only [Int.toNat_zero, Nat.zero_min, Nat.zero_add, Nat.sub_zero]
      omega
    rw [hk]
    simp only [Int.toNat_zero, Nat.zero_min, List.drop_zero, List.take_length]
    rw [List.mem_map]
    exact ⟨(id, p), List.mem_filter.mpr ⟨hperm.mem_iff.mpr hmem, by simpa using hcond⟩, rfl⟩


/-- C15, amended, on the seed data: the category `Test` holds one product, `prod-999`, whose
stock is 0; the listing reports the total 1 and its page contains that product. -/
theorem ListProducts_page_witness :
    ∃ page, ListProducts id (NewProductServer (fun _ => "t") : productServer ℚ)
        ⟨"Test", 10, 0⟩ = .ret (some ⟨page, 1⟩) none ∧
      (⟨"prod-999", "Out of Stock Item", "This product is out of stock", 99.99, "Test", 0,
        "t"⟩ : Product ℚ) ∈ page := by
  obtain ⟨page, h, -, -, -, -, hfull⟩ :=
    ListProducts_page id (NewProductServer (fun _ => "t") : productServer ℚ) ⟨"Test", 10, 0⟩
      (List.Perm.refl _) (by decide) (by decide)
  exact ⟨page, h, hfull rfl (by decide) "prod-999" _ (by simp [NewProductServer]) (Or.inr rfl)⟩

/-- The loop of `GetProductsByIDs` collects, in the order of the request, the products stored
under the requested identifiers. -/
theorem foldl_lookup (m : GoMap (Product F)) (ids : List String) (acc : List (Product F)) :
    ids.foldl
        (fun products id =>
          match m.lookup id with
          | some product => products ++ [product]
          | none => products)
        acc =
      acc ++ ids.filterMap m.lookup := by
  induction ids generalizing acc with
  | nil => simp
  | cons id ids ih =>
    rw [List.foldl_cons, ih]
    cases h : m.lookup id <;> simp [List.filterMap_cons, h]

/-- C16. `GetProductsByIDs` returns no error and the products stored under the requested
identifiers, in the order of the request: a product is in the result exactly when it is
stored under an identifier that occurs in the request, and an identifier under which nothing
is stored contributes nothing. On the seed data the request `prod-001`, `prod-404` returns
exactly one product, `prod-001`. -/
theorem GetProductsByIDs_subset [GoFloat64 F] (s : productServer F)
    (req : GetProductsByIDsRequest) :
    GetProductsByIDs s req =
      .ret (some { Products := req.ProductIds.filterMap s.products.lookup }) none ∧
    (∀ p, p ∈ req.ProductIds.filterMap s.products.lookup ↔
      ∃ id, id ∈ req.ProductIds ∧ s.products.lookup id = some p) ∧
    (∀ (ids₁ ids₂ : List String) (id : String), s.products.lookup id = none →
      GetProductsByIDs s ⟨ids₁ ++ id :: ids₂⟩ = GetProductsByIDs s ⟨ids₁ ++ ids₂⟩) ∧
    (∀ stamp : Nat → String,
      GetProductsByIDs (NewProductServer stamp : productServer F) ⟨["prod-001", "prod-404"]⟩ =
        .ret (some
          { Products :=
            [⟨"prod-001", "Laptop Pro 15", "High-performance laptop with 15-inch display",
              1299.99, "Electronics", 50, stamp 0⟩] }) none) := by
  have hmain : ∀ (s : productServer F) (req : GetProductsByIDsRequest),
      GetProductsByIDs s req =
        .ret (some { Products := req.ProductIds.filterMap s.products.lookup }) none := by
    intro s req
    have h := foldl_lookup s.products req.ProductIds []
    rw [List.nil_append] at h
    exact congrArg
      (fun l => GoResult.ret (some ({ Products := l } : GetProductsByIDsResponse F)) none) h
  refine ⟨hmain s req, ?_, ?_, ?_⟩
  · intro p
    simp only [List.mem_filterMap]
  · intro ids₁ ids₂ id h
    rw [hmain, hmain]
    simp [List.filterMap_append, List.filterMap_cons, h]
  · intro stamp
    rw [hmain]
    rfl

end productServer

/-! ### Creating an order: no validation, and the scenario of the seed data -/

namespace orderServer

variable {F : Type}

open errorutil pb

/-- C17. `CreateOrder` validates nothing and never fails: for every state and every request,
whatever the product identifiers and the quantities of its items are and also when it has no
item, the call does not panic and returns no error and a new order; that order carries the
items of the request unchanged, is stored in the primary map under its identifier and is in
the index list of the request's user. -/
theorem CreateOrder_never_fails [GoFloat64 F] (s : orderServer F) (req : CreateOrderRequest F)
    (createdAt updatedAt : String) :
    ∃ o, (CreateOrder s req createdAt updatedAt).2 = .ret (some ⟨o⟩) none ∧
      o.Items = req.Items ∧ o.UserId = req.UserId ∧
      (CreateOrder s req createdAt updatedAt).1.orders.lookup o.Id = some o ∧
      o ∈ ordersOf (CreateOrder s req createdAt updatedAt).1 req.UserId := by
  refine ⟨_, rfl, rfl, rfl, ?_, ?_⟩
  · simp only [CreateOrder]
    exact GoMap.lookup_store_self _ _ _
  · simp only [ordersOf, CreateOrder, GoMap.index_store_self]
    simp

/-- The binary64 sum of the scenario: `0 + 1299.99 * 1 + 29.99 * 2`, each operation rounded,
is the binary64 number that the literal `1359.97` denotes. -/
theorem scenario_total :
    ((0 : Binary64) + 1299.99 * GoFloat64.ofInt32 1) + 29.99 * GoFloat64.ofInt32 2 = 1359.97 ∧
    (1359.97 : Binary64) = Binary64.normal false 5981211313706107 (-42) := by
  constructor
  · set_option maxRecDepth 100000 in decide
  · decide

/-- Binary64 arithmetic is not exact arithmetic: `0.1 + 0.2` is not the number `0.3`; and
the significands of some literals, as every IEEE implementation gives them
(`0.1 = 0x1.999999999999ap-4`). -/
theorem binary64_not_exact :
    (0.1 : Binary64) + 0.2 ≠ 0.3 ∧
    (0.1 : Binary64) = Binary64.normal false 0x1999999999999a (-56) ∧
    (1299.99 : Binary64) = Binary64.normal false 5717416483970089 (-42) ∧
    (29.99 : Binary64) = Binary64.normal false 8441434551552573 (-48) ∧
    (GoFloat64.ofInt32 2 : Binary64) = Binary64.normal false (2 ^ 52) (-51) := by
  refine ⟨by decide, by decide, by decide, by decide, by decide⟩

/-- C18. On the freshly seeded order server, with the amounts computed in binary64,
`CreateOrder` for `user-001` with the items `prod-001` (quantity 1, price 1299.99) and
`prod-002` (quantity 2, price 29.99) returns no error and the order `order-008` with status
pending and total 1359.97: the rounded sum `0 + 1299.99 * 1 + 29.99 * 2` is the binary64
number of the literal `1359.97`. `ListOrdersByUser` for `user-001` with limit 100 and offset
0 then returns no error, the total 6 and a page in which that order occurs exactly once. -/
theorem CreateOrder_scenario (stamp : Nat → String) (createdAt updatedAt : String) :
    (CreateOrder (NewOrderServer stamp : orderServer Binary64)
        ⟨"user-001", [⟨"prod-001", 1, 1299.99⟩, ⟨"prod-002", 2, 29.99⟩]⟩ createdAt updatedAt).2 =
      .ret (some ⟨⟨"order-008", "user-001", [⟨"prod-001", 1, 1299.99⟩, ⟨"prod-002", 2, 29.99⟩],
        1359.97, OrderStatus.ORDER_STATUS_PENDING, createdAt, updatedAt⟩⟩) none ∧
    ∃ page,
      ListOrdersByUser
          (CreateOrder (NewOrderServer stamp : orderServer Binary64)
            ⟨"user-001", [⟨"prod-001", 1, 1299.99⟩, ⟨"prod-002", 2, 29.99⟩]⟩
            createdAt updatedAt).1 ⟨"user-001", 100, 0⟩ =
        .ret (some ⟨page, 6⟩) none ∧
      page.count ⟨"order-008", "user-001", [⟨"prod-001", 1, 1299.99⟩, ⟨"prod-002", 2, 29.99⟩],
        1359.97, OrderStatus.ORDER_STATUS_PENDING, createdAt, updatedAt⟩ = 1 := by
  have hc : (NewOrderServer stamp : orderServer Binary64).orderCounter = 8 := rfl
  have hid : "order-" ++ sprintf03d 8 = "order-008" := by decide
  have hres : (CreateOrder (NewOrderServer stamp : orderServer Binary64)
        ⟨"user-001", [⟨"prod-001", 1, 1299.99⟩, ⟨"prod-002", 2, 29.99⟩]⟩ createdAt updatedAt).2 =
      .ret (some ⟨⟨"order-008", "user-001", [⟨"prod-001", 1, 1299.99⟩, ⟨"prod-002", 2, 29.99⟩],
        1359.97, OrderStatus.ORDER_STATUS_PENDING, createdAt, updatedAt⟩⟩) none := by
    simp only [CreateOrder, hc, hid, List.foldl_cons, List.foldl_nil, scenario_total.1]
  refine ⟨hres, ?_⟩
  have hidx : ordersOf (CreateOrder (NewOrderServer stamp : orderServer Binary64)
        ⟨"user-001", [⟨"prod-001", 1, 1299.99⟩, ⟨"prod-002", 2, 29.99⟩]⟩ createdAt updatedAt).1
        "user-001" =
      [ ⟨"order-001", "user-001", [⟨"prod-001", 1, 1299.99⟩, ⟨"prod-002", 2, 29.99⟩], 1359.97,
          OrderStatus.ORDER_STATUS_DELIVERED, stamp 0, stamp 1⟩,
        ⟨"order-002", "user-001", [⟨"prod-003", 1, 49.99⟩, ⟨"prod-004", 1, 89.99⟩], 139.98,
          OrderStatus.ORDER_STATUS_PROCESSING, stamp 2, stamp 3⟩,
        ⟨"order-999", "user-001", [], 0, OrderStatus.ORDER_STATUS_CANCELLED, stamp 10,
          stamp 11⟩,
        ⟨"order-998", "user-001", [⟨"prod-notfound", 1, 99.99⟩], 99.99,
          OrderStatus.ORDER_STATUS_PENDING, stamp 12, stamp 13⟩,
        ⟨"order-997", "user-001", [⟨"prod-999", 1, 99.99⟩], 99.99,
          OrderStatus.ORDER_STATUS_PENDING, stamp 14, stamp 15⟩,
        ⟨"order-008", "user-001", [⟨"prod-001", 1, 1299.99⟩, ⟨"prod-002", 2, 29.99⟩], 1359.97,
          OrderStatus.ORDER_STATUS_PENDING, createdAt, updatedAt⟩ ] := by
    have hseed : ordersOf (NewOrderServer stamp : orderServer Binary64) "user-001" =
      [ ⟨"order-001", "user-001", [⟨"prod-001", 1, 1299.99⟩, ⟨"prod-002", 2, 29.99⟩], 1359.97,
          OrderStatus.ORDER_STATUS_DELIVERED, stamp 0, stamp 1⟩,
        ⟨"order-002", "user-001", [⟨"prod-003", 1, 49.99⟩, ⟨"prod-004", 1, 89.99⟩], 139.98,
          OrderStatus.ORDER_STATUS_PROCESSING, stamp 2, stamp 3⟩,
        ⟨"order-999", "user-001", [], 0, OrderStatus.ORDER_STATUS_CANCELLED, stamp 10,
          stamp 11⟩,
        ⟨"order-998", "user-001", [⟨"prod-notfound", 1, 99.99⟩], 99.99,
          OrderStatus.ORDER_STATUS_PENDING, stamp 12, stamp 13⟩,
        ⟨"order-997", "user-001", [⟨"prod-999", 1, 99.99⟩], 99.99,
          OrderStatus.ORDER_STATUS_PENDING, stamp 14, stamp 15⟩ ] := rfl
    have hstep : ordersOf (CreateOrder (NewOrderServer stamp : orderServer Binary64)
        ⟨"user-001", [⟨"prod-001", 1, 1299.99⟩, ⟨"prod-002", 2, 29.99⟩]⟩ createdAt updatedAt).1
        "user-001" =
        ordersOf (NewOrderServer stamp : orderServer Binary64) "user-001" ++
          [⟨"order-008", "user-001", [⟨"prod-001", 1, 1299.99⟩, ⟨"prod-002", 2, 29.99⟩],
            1359.97, OrderStatus.ORDER_STATUS_PENDING, createdAt, updatedAt⟩] := by
      simp only [ordersOf, CreateOrder, GoMap.index_store_self, hc, hid, List.foldl_cons,
        List.foldl_nil, scenario_total.1]
    rw [hstep, hseed]
    rfl
  have hlist := ListOrdersByUser_of_nat
    (CreateOrder (NewOrderServer stamp : orderServer Binary64)
      ⟨"user-001", [⟨"prod-001", 1, 1299.99⟩, ⟨"prod-002", 2, 29.99⟩]⟩ createdAt updatedAt).1
    "user-001" 100 0
  rw [hidx] at hlist
  have h32 : int32 ((6 : Nat) : Int) = 6 := by decide
  simp only [List.length_cons, List.length_nil, Nat.zero_min, Nat.zero_add, Nat.sub_zero,
    List.drop_zero, Nat.reduceAdd, Nat.reduceLeDiff, Nat.min_eq_right, List.take_succ_cons,
    List.take_zero, h32] at hlist
  refine ⟨_, hlist, ?_⟩
  simp [List.count_cons]

end orderServer

/-! ### The client factory of the gateway -/

namespace clientFactory

variable {U P O Cfg : Type}

/-- C19. Each of the three accessors returns no error and the handle stored in the factory
for its service, and leaves the factory as it was, for every factory and every
configuration value. So two calls for the same service return the same handle whatever the
two configurations are, also after any other accessor calls in between. -/
theorem accessors_return_stored_handle (f : clientFactory U P O) (cfg cfg' : Cfg) :
    Order_OrderServiceClient f cfg = (f, f.orderClient, none) ∧
    Product_ProductServiceClient f cfg = (f, f.productClient, none) ∧
    User_UserServiceClient f cfg = (f, f.userClient, none) ∧
    (Order_OrderServiceClient f cfg).2.1 = (Order_OrderServiceClient f cfg').2.1 ∧
    (Product_ProductServiceClient f cfg).2.1 = (Product_ProductServiceClient f cfg').2.1 ∧
    (User_UserServiceClient f cfg).2.1 = (User_UserServiceClient f cfg').2.1 ∧
    (Order_OrderServiceClient (User_UserServiceClient (Product_ProductServiceClient
      (Order_OrderServiceClient f cfg).1 cfg').1 cfg).1 cfg').2.1 = f.orderClient :=
  ⟨rfl, rfl, rfl, rfl, rfl, rfl, rfl⟩

end clientFactory

/-! ### What `CreateOrder` changes and what it leaves alone -/

namespace orderServer

variable {F : Type}

open pb

/-- C21, counterexample. In a state whose counter is 9223372036854775807, the largest Go
`int`, `CreateOrder` leaves the counter at -9223372036854775808: the increment wraps around
and the counter is not one more than before. -/
theorem CreateOrder_counter_wraps :
    (CreateOrder
        ({ (NewOrderServer (fun _ => "t") : orderServer ℚ) with
            orderCounter := 9223372036854775807 })
        ⟨"user-001", []⟩ "t" "t").1.orderCounter = -9223372036854775808 ∧
    (CreateOrder
        ({ (NewOrderServer (fun _ => "t") : orderServer ℚ) with
            orderCounter := 9223372036854775807 })
        ⟨"user-001", []⟩ "t" "t").1.orderCounter ≠ 9223372036854775807 + 1 := by
  have h : (CreateOrder
        ({ (NewOrderServer (fun _ => "t") : orderServer ℚ) with
            orderCounter := 9223372036854775807 })
        ⟨"user-001", []⟩ "t" "t").1.orderCounter = -9223372036854775808 := by
    show wrapInt (9223372036854775807 + 1) = -9223372036854775808
    decide
  refine ⟨h, ?_⟩
  rw [h]
  decide

/-- C21, amended. `CreateOrder` changes the state only by its own additions. The counter
becomes the old one plus one, reduced to the range of a 64-bit Go `int`: exactly one more
whenever the old counter is below 9223372036854775807. The new order, whose identifier is
`order-` followed by the formatted old counter, becomes the last element of the index list of
the request's user, behind the earlier elements in their order; the index entry of every
other user, the maintenance flag, and every primary-map entry under another identifier than
the new order's are as before; and the primary map stores the new order under its
identifier. -/
theorem CreateOrder_frame [GoFloat64 F] (s : orderServer F) (req : CreateOrderRequest F)
    (createdAt updatedAt : String) :
    (CreateOrder s req createdAt updatedAt).1.orderCounter = wrapInt (s.orderCounter + 1) ∧
    (-(2 ^ 63) ≤ s.orderCounter → s.orderCounter < 2 ^ 63 - 1 →
      (CreateOrder s req createdAt updatedAt).1.orderCounter = s.orderCounter + 1) ∧
    (CreateOrder s req createdAt updatedAt).1.maintenanceMode = s.maintenanceMode ∧
    (∃ o, (CreateOrder s req createdAt updatedAt).2 = .ret (some ⟨o⟩) none ∧
      o.Id = "order-" ++ sprintf03d s.orderCounter ∧
      ordersOf (CreateOrder s req createdAt updatedAt).1 req.UserId =
        ordersOf s req.UserId ++ [o] ∧
      (∀ userId, userId ≠ req.UserId →
        (CreateOrder s req createdAt updatedAt).1.userOrders.lookup userId =
          s.userOrders.lookup userId ∧
        ordersOf (CreateOrder s req createdAt updatedAt).1 userId = ordersOf s userId) ∧
      (∀ orderId, orderId ≠ o.Id →
        (CreateOrder s req createdAt updatedAt).1.orders.lookup orderId =
          s.orders.lookup orderId) ∧
      (CreateOrder s req createdAt updatedAt).1.orders.lookup o.Id = some o) := by
  refine ⟨rfl, ?_, rfl, _, rfl, rfl, ?_, ?_, ?_, ?_⟩
  · intro h₀ h₁
    show wrapInt (s.orderCounter + 1) = s.orderCounter + 1
    exact wrapInt_of_range (by omega) (by omega)
  · simp only [ordersOf, CreateOrder, GoMap.index_store_self]
  · intro userId hne
    constructor
    · show (s.userOrders.store _ _).lookup userId = _
      exact GoMap.lookup_store_ne _ _ hne
    · simp only [ordersOf, CreateOrder]
      exact GoMap.index_store_ne _ _ _ hne
  · intro orderId hne
    show (s.orders.store _ _).lookup orderId = _
    exact GoMap.lookup_store_ne _ _ hne
  · show (s.orders.store _ _).lookup _ = _
    exact GoMap.lookup_store_self _ _ _

/-- C21, amended, on the seeded server, whose counter is 8: after an order for `user-002`
the counter is 9. -/
theorem CreateOrder_frame_witness :
    (CreateOrder (NewOrderServer (fun _ => "t") : orderServer ℚ)
        ⟨"user-002", [⟨"prod-002", 1, 29.99⟩]⟩ "t" "t").1.orderCounter = 8 + 1 :=
  (CreateOrder_frame (NewOrderServer (fun _ => "t") : orderServer ℚ)
    ⟨"user-002", [⟨"prod-002", 1, 29.99⟩]⟩ "t" "t").2.1 (by decide) (by decide)

end orderServer
end GrpcFederationDemo
